import Mathlib

/-!
Shallow embedding of `src/src/lib.rs` (the cidacake Solana program).

Conventions of the embedding:
* Machine integers are `Nat` with explicit `% 2^64` where the Rust code can
  wrap (release-mode `u64` arithmetic), and `Int` for `i64` with explicit
  two's-complement conversion at the codec boundary.
* Byte buffers are `List Nat`; a well-formed byte is `< 256`.  A `Pubkey`
  is a 32-byte buffer (the Rust type enforces the length; theorems carry it
  as a hypothesis where it matters).
* Rust slice indexing (`data[i]`, `data[a..b]`) panics when out of range;
  the embedding models this with `Option` and a dedicated `Outcome.panicked`
  result, distinct from a returned `ProgramError`.
* The host collaborators (program-derived-address hashing, rent oracle,
  the system-program transfer and create-account invocations, the clock
  sysvar) are external to the repository; they are modelled as an `Env` of
  oracles: `fpa` for `Pubkey::find_program_address`, `rentMin` for
  `Rent::minimum_balance`, a success flag and the standard lamport/data
  effects for `invoke` / `invoke_signed`, and `clock` for
  `Clock::from_account_info`.
* Accounts are a positional list, mirroring `next_account_info`; writes go
  back by position (duplicate-account aliasing is not modelled; no claim
  depends on it).
-/

abbrev Bytes : Type := List Nat

abbrev Pubkey : Type := Bytes

/-- `2^64`, the modulus of Rust release-mode `u64` arithmetic. -/
def U64MOD : Nat := 2 ^ 64

/-- Little-endian encoding of `n` on `w` bytes (`u64::to_le_bytes` is `toLe 8`). -/
def toLe : Nat → Nat → Bytes
  | 0, _ => []
  | w + 1, n => n % 256 :: toLe w (n / 256)

/-- Little-endian decoding (`u64::from_le_bytes`). -/
def fromLe (bs : Bytes) : Nat := bs.foldr (fun b acc => b + 256 * acc) 0

/-- `i64::to_le_bytes`: two's-complement little-endian encoding on 8 bytes. -/
def i64ToLe (t : Int) : Bytes := toLe 8 (t % (2 ^ 64 : Int)).toNat

/-- `i64::from_le_bytes`: decode 8 little-endian bytes as a signed 64-bit value. -/
def i64FromLe (bs : Bytes) : Int :=
  let n := fromLe bs
  if n < 2 ^ 63 then (n : Int) else (n : Int) - 2 ^ 64

/-- Errors returned by the program (`solana_program::program_error::ProgramError`).
`External` stands for whatever error a failing cross-program invocation
(system transfer / create_account) propagates through `?`. -/
inductive ProgramError where
  | IncorrectProgramId
  | InvalidAccountData
  | InsufficientFunds
  | InvalidInstructionData
  | NotEnoughAccountKeys
  | External
deriving Repr, DecidableEq

/-- `CakeState` (lib.rs lines 16–21). -/
structure CakeState where
  owner : Pubkey
  product_counter : Nat
  history_counter : Nat
deriving Repr, DecidableEq

/-- `CakeState::pack_into_slice` (lib.rs 34–39): the 48-byte layout. -/
def CakeState.pack_into_slice (s : CakeState) : Bytes :=
  s.owner ++ toLe 8 s.product_counter ++ toLe 8 s.history_counter

/-- `CakeState::unpack_from_slice` (lib.rs 41–49). -/
def CakeState.unpack_from_slice (src : Bytes) : Except ProgramError CakeState :=
  if src.length ≠ 48 then .error .InvalidAccountData
  else .ok ⟨src.take 32, fromLe ((src.drop 32).take 8), fromLe ((src.drop 40).take 8)⟩

/-- `Pack::unpack_unchecked` specialised to `CakeState`. -/
def CakeState.unpack_unchecked (src : Bytes) : Except ProgramError CakeState :=
  CakeState.unpack_from_slice src

/-- `Pack::unpack` specialised to `CakeState`: `is_initialized` is constantly
`true` in the source (lib.rs 25–29), so this is just `unpack_from_slice`. -/
def CakeState.unpack (src : Bytes) : Except ProgramError CakeState :=
  CakeState.unpack_from_slice src

/-- `Pack::pack` specialised to `CakeState`: length-checks the destination
slot, then overwrites it entirely. -/
def CakeState.pack (s : CakeState) (dst : Bytes) : Except ProgramError Bytes :=
  if dst.length ≠ 48 then .error .InvalidAccountData
  else .ok (CakeState.pack_into_slice s)

/-- `Product` (lib.rs 52–59). `name` and `description` are fixed 32- and
128-byte arrays in the source. -/
structure Product where
  id : Nat
  name : Bytes
  description : Bytes
  price : Nat
  stock : Nat
deriving Repr, DecidableEq

/-- `Product::pack_into_slice` (lib.rs 72–79): the 184-byte layout. -/
def Product.pack_into_slice (p : Product) : Bytes :=
  toLe 8 p.id ++ p.name ++ p.description ++ toLe 8 p.price ++ toLe 8 p.stock

/-- `Product::unpack_from_slice` (lib.rs 81–93). -/
def Product.unpack_from_slice (src : Bytes) : Except ProgramError Product :=
  if src.length ≠ 184 then .error .InvalidAccountData
  else .ok ⟨fromLe (src.take 8), (src.drop 8).take 32, (src.drop 40).take 128,
            fromLe ((src.drop 168).take 8), fromLe ((src.drop 176).take 8)⟩

/-- `Pack::unpack` specialised to `Product` (`is_initialized` constantly true). -/
def Product.unpack (src : Bytes) : Except ProgramError Product :=
  Product.unpack_from_slice src

/-- `Pack::pack` specialised to `Product`. -/
def Product.pack (p : Product) (dst : Bytes) : Except ProgramError Bytes :=
  if dst.length ≠ 184 then .error .InvalidAccountData
  else .ok (Product.pack_into_slice p)

/-- `PurchaseHistory` (lib.rs 96–103).  Note: `product_id` is a `u8` in the
source (one byte); well-formed values are `< 256`. -/
structure PurchaseHistory where
  product_id : Nat
  quantity : Nat
  total_price : Nat
  buyer : Pubkey
  timestamp : Int
deriving Repr, DecidableEq

/-- `PurchaseHistory::pack_into_slice` (lib.rs 116–123): the 57-byte layout. -/
def PurchaseHistory.pack_into_slice (h : PurchaseHistory) : Bytes :=
  h.product_id :: (toLe 8 h.quantity ++ toLe 8 h.total_price ++ h.buyer ++ i64ToLe h.timestamp)

/-- `PurchaseHistory::unpack_from_slice` (lib.rs 125–135). -/
def PurchaseHistory.unpack_from_slice (src : Bytes) : Except ProgramError PurchaseHistory :=
  if src.length ≠ 57 then .error .InvalidAccountData
  else .ok ⟨src.headD 0, fromLe ((src.drop 1).take 8), fromLe ((src.drop 9).take 8),
            (src.drop 17).take 32, i64FromLe ((src.drop 49).take 8)⟩

/-- `Pack::pack` specialised to `PurchaseHistory`. -/
def PurchaseHistory.pack (h : PurchaseHistory) (dst : Bytes) : Except ProgramError Bytes :=
  if dst.length ≠ 57 then .error .InvalidAccountData
  else .ok (PurchaseHistory.pack_into_slice h)

/-- `solana_program::account_info::AccountInfo`, restricted to the fields the
program can observe or mutate: key, signer flag, lamports, data, owning
program.  The source never reads `is_signer`; it is carried here so that
independence from it is a provable property rather than a modelling choice. -/
structure AccountInfo where
  key : Pubkey
  is_signer : Bool
  lamports : Nat
  data : Bytes
  owner : Pubkey
deriving Repr, DecidableEq

/-- Host oracles (external collaborators, outside the repository):
`fpa` models `Pubkey::find_program_address` (seed list, program id) ↦
(derived address, bump); `rentMin` models `Rent::minimum_balance`;
`transfer_ok` is the outcome of the system-program transfer invoked by sell;
`create_ok` the outcome of a `create_account` invocation; `clock` the
`unix_timestamp` of the clock sysvar. -/
structure Env where
  fpa : List Bytes → Pubkey → Pubkey × Nat
  rentMin : Nat → Nat
  transfer_ok : Bool
  create_ok : Bool
  clock : Int

/-- Result of one invocation: `success` with the account list after the
program returned `Ok(())`, `failure` with the returned `ProgramError` and
the account buffers as they stood at the abort (the host discards them),
or `panicked` for a Rust panic (out-of-bounds slice index). -/
inductive Outcome where
  | success (accounts : List AccountInfo)
  | failure (e : ProgramError) (accounts : List AccountInfo)
  | panicked (accounts : List AccountInfo)
deriving Repr, DecidableEq

/-- Rust `bs[i]`: `some` the byte, `none` models the out-of-range panic. -/
def byteAt (bs : Bytes) (i : Nat) : Option Nat := bs.get? i

/-- Rust `bs[lo..hi]`: `some` the slice, `none` models the out-of-range panic. -/
def sliceN (bs : Bytes) (lo hi : Nat) : Option Bytes :=
  if lo ≤ hi ∧ hi ≤ bs.length then some ((bs.drop lo).take (hi - lo)) else none

/-- ASCII bytes of the PDA namespace tag b"product". -/
def productTag : Bytes := [112, 114, 111, 100, 117, 99, 116]

/-- ASCII bytes of the PDA namespace tag b"history". -/
def historyTag : Bytes := [104, 105, 115, 116, 111, 114, 121]

/-- Opcode 0, `initialize` (lib.rs 147–168): overwrites the ShopState slot
with owner := supplied owner key and both counters zero.  (There is no
initialized-state check in the source: `is_initialized` is constantly true
and `unpack_unchecked` is used.) -/
def op_init (env : Env) (program_id : Pubkey) (accounts : List AccountInfo)
    (instruction_data : Bytes) : Outcome :=
  match accounts with
  | cake_account :: owner :: _payer :: _system_program :: _ =>
    if cake_account.owner ≠ program_id then .failure .IncorrectProgramId accounts
    else if cake_account.data.length ≠ 48 then .failure .InvalidAccountData accounts
    else
      match CakeState.unpack_unchecked cake_account.data with
      | .error e => .failure e accounts
      | .ok cake_state0 =>
        let cake_state : CakeState :=
          { cake_state0 with owner := owner.key, product_counter := 0, history_counter := 0 }
        match CakeState.pack cake_state cake_account.data with
        | .error e => .failure e accounts
        | .ok newdata => .success (accounts.set 0 { cake_account with data := newdata })
  | _ => .failure .NotEnoughAccountKeys accounts

/-- Opcode 1, `add_product` (lib.rs 169–240). -/
def op_add_product (env : Env) (program_id : Pubkey) (accounts : List AccountInfo)
    (instruction_data : Bytes) : Outcome :=
  match accounts with
  | cake_account :: product_account :: owner :: payer :: _system_program :: _ =>
    if cake_account.owner ≠ program_id then .failure .IncorrectProgramId accounts
    else
      match CakeState.unpack cake_account.data with
      | .error e => .failure e accounts
      | .ok cake_state =>
        if cake_state.owner ≠ owner.key then .failure .InvalidAccountData accounts
        else
          let product_id := cake_state.product_counter
          if product_account.key ≠ (env.fpa [productTag, toLe 8 product_id] program_id).1 then
            .failure .InvalidAccountData accounts
          else
            let rent_lamports := env.rentMin 184
            if env.create_ok = false then .failure .External accounts
            else
              let accounts1 :=
                (accounts.set 1 { product_account with
                    lamports := rent_lamports
                    owner := program_id
                    data := List.replicate 184 0 }).set 3
                  { payer with lamports := payer.lamports - rent_lamports }
              match sliceN instruction_data 1 33, sliceN instruction_data 33 161,
                    sliceN instruction_data 161 169, sliceN instruction_data 169 177 with
              | some name, some description, some priceb, some stockb =>
                let product : Product :=
                  ⟨product_id, name, description, fromLe priceb, fromLe stockb⟩
                match Product.pack product (List.replicate 184 0) with
                | .error e => .failure e accounts1
                | .ok pdata =>
                  let accounts2 := accounts1.set 1
                    { product_account with
                      lamports := rent_lamports
                      owner := program_id
                      data := pdata }
                  let cake_state2 := { cake_state with
                    product_counter := (cake_state.product_counter + 1) % U64MOD }
                  match CakeState.pack cake_state2 cake_account.data with
                  | .error e => .failure e accounts2
                  | .ok cdata => .success (accounts2.set 0 { cake_account with data := cdata })
              | _, _, _, _ => .panicked accounts1
  | _ => .failure .NotEnoughAccountKeys accounts

/-- Opcode 2, `add_stock` (lib.rs 241–271). -/
def op_add_stock (env : Env) (program_id : Pubkey) (accounts : List AccountInfo)
    (instruction_data : Bytes) : Outcome :=
  match accounts with
  | cake_account :: product_account :: owner :: _ =>
    if cake_account.owner ≠ program_id then .failure .IncorrectProgramId accounts
    else
      match CakeState.unpack cake_account.data with
      | .error e => .failure e accounts
      | .ok cake_state =>
        if cake_state.owner ≠ owner.key then .failure .InvalidAccountData accounts
        else
          match sliceN instruction_data 1 9 with
          | none => .panicked accounts
          | some pidb =>
            let product_id := fromLe pidb
            if product_account.key ≠ (env.fpa [productTag, toLe 8 product_id] program_id).1 then
              .failure .InvalidAccountData accounts
            else
              match Product.unpack product_account.data with
              | .error e => .failure e accounts
              | .ok product =>
                match sliceN instruction_data 9 17 with
                | none => .panicked accounts
                | some amountb =>
                  let product2 := { product with
                    stock := (product.stock + fromLe amountb) % U64MOD }
                  match Product.pack product2 product_account.data with
                  | .error e => .failure e accounts
                  | .ok pdata =>
                    .success (accounts.set 1 { product_account with data := pdata })
  | _ => .failure .NotEnoughAccountKeys accounts

/-- Opcode 3, `update_price` (lib.rs 272–302). -/
def op_update_price (env : Env) (program_id : Pubkey) (accounts : List AccountInfo)
    (instruction_data : Bytes) : Outcome :=
  match accounts with
  | cake_account :: product_account :: owner :: _ =>
    if cake_account.owner ≠ program_id then .failure .IncorrectProgramId accounts
    else
      match CakeState.unpack cake_account.data with
      | .error e => .failure e accounts
      | .ok cake_state =>
        if cake_state.owner ≠ owner.key then .failure .InvalidAccountData accounts
        else
          match sliceN instruction_data 1 9 with
          | none => .panicked accounts
          | some pidb =>
            let product_id := fromLe pidb
            if product_account.key ≠ (env.fpa [productTag, toLe 8 product_id] program_id).1 then
              .failure .InvalidAccountData accounts
            else
              match Product.unpack product_account.data with
              | .error e => .failure e accounts
              | .ok product =>
                match sliceN instruction_data 9 17 with
                | none => .panicked accounts
                | some npb =>
                  let product2 := { product with price := fromLe npb }
                  match Product.pack product2 product_account.data with
                  | .error e => .failure e accounts
                  | .ok pdata =>
                    .success (accounts.set 1 { product_account with data := pdata })
  | _ => .failure .NotEnoughAccountKeys accounts

/-- Opcode 4, `sell` (lib.rs 303–419).  Order of effects mirrors the source:
stock check, wrapping total, external transfer, stock write, history PDA
check, history account creation, history write, counter increment. -/
def op_sell (env : Env) (program_id : Pubkey) (accounts : List AccountInfo)
    (instruction_data : Bytes) : Outcome :=
  match accounts with
  | owner :: cake_account :: product_account :: buyer ::
      _system_program :: history_account :: payer :: _clock :: _ =>
    if cake_account.owner ≠ program_id then .failure .IncorrectProgramId accounts
    else
      match CakeState.unpack cake_account.data with
      | .error e => .failure e accounts
      | .ok cake_state =>
        if cake_state.owner ≠ owner.key then .failure .InvalidAccountData accounts
        else
          match sliceN instruction_data 1 9 with
          | none => .panicked accounts
          | some pidb =>
            let product_id := fromLe pidb
            if product_account.key ≠ (env.fpa [productTag, toLe 8 product_id] program_id).1 then
              .failure .InvalidAccountData accounts
            else
              match Product.unpack product_account.data with
              | .error e => .failure e accounts
              | .ok product =>
                match sliceN instruction_data 9 17 with
                | none => .panicked accounts
                | some amountb =>
                  let amount := fromLe amountb
                  if amount > product.stock then .failure .InsufficientFunds accounts
                  else
                    let total_price := (amount * product.price) % U64MOD
                    if env.transfer_ok = false then .failure .External accounts
                    else
                      let accounts1 :=
                        (accounts.set 3
                          { buyer with lamports := buyer.lamports - total_price }).set 0
                          { owner with lamports := (owner.lamports + total_price) % U64MOD }
                      let product2 := { product with stock := product.stock - amount }
                      match Product.pack product2 product_account.data with
                      | .error e => .failure e accounts1
                      | .ok pdata =>
                        let accounts2 := accounts1.set 2 { product_account with data := pdata }
                        let rent_lamports := env.rentMin 57
                        let history_index := cake_state.history_counter
                        if history_account.key ≠
                            (env.fpa [historyTag, buyer.key, toLe 8 product_id,
                                      toLe 8 history_index] program_id).1 then
                          .failure .InvalidAccountData accounts2
                        else
                          if env.create_ok = false then .failure .External accounts2
                          else
                            let accounts3 :=
                              (accounts2.set 5
                                { history_account with
                                  lamports := rent_lamports
                                  owner := program_id
                                  data := List.replicate 57 0 }).set 6
                                { payer with lamports := payer.lamports - rent_lamports }
                            let history_entry : PurchaseHistory :=
                              ⟨product_id % 256, amount, total_price, buyer.key, env.clock⟩
                            match PurchaseHistory.pack history_entry (List.replicate 57 0) with
                            | .error e => .failure e accounts3
                            | .ok hdata =>
                              let accounts4 := accounts3.set 5
                                { history_account with
                                  lamports := rent_lamports
                                  owner := program_id
                                  data := hdata }
                              let cake_state2 := { cake_state with
                                history_counter := (cake_state.history_counter + 1) % U64MOD }
                              match CakeState.pack cake_state2 cake_account.data with
                              | .error e => .failure e accounts4
                              | .ok cdata =>
                                .success (accounts4.set 1 { cake_account with data := cdata })
  | _ => .failure .NotEnoughAccountKeys accounts

/-- Opcode 5, `migrate_history` (lib.rs 420–463).  Note: no ShopState is
loaded and no owner comparison is made on this path. -/
def op_migrate_history (env : Env) (program_id : Pubkey) (accounts : List AccountInfo)
    (instruction_data : Bytes) : Outcome :=
  match accounts with
  | history_account :: payer :: _system_program :: _buyer :: _ =>
    let rent_lamports := env.rentMin 57
    match byteAt instruction_data 1 with
    | none => .panicked accounts
    | some _seed =>
      if env.create_ok = false then .failure .External accounts
      else
        let accounts1 :=
          (accounts.set 0
            { history_account with
              lamports := rent_lamports
              owner := program_id
              data := List.replicate 57 0 }).set 1
            { payer with lamports := payer.lamports - rent_lamports }
        match byteAt instruction_data 2, sliceN instruction_data 3 11,
              sliceN instruction_data 11 19, sliceN instruction_data 19 51,
              sliceN instruction_data 51 59 with
        | some product_id, some qb, some tpb, some buyerb, some tsb =>
          let history_entry : PurchaseHistory :=
            ⟨product_id, fromLe qb, fromLe tpb, buyerb, i64FromLe tsb⟩
          match PurchaseHistory.pack history_entry (List.replicate 57 0) with
          | .error e => .failure e accounts1
          | .ok hdata =>
            .success (accounts1.set 0
              { history_account with
                lamports := rent_lamports
                owner := program_id
                data := hdata })
        | _, _, _, _, _ => .panicked accounts1
  | _ => .failure .NotEnoughAccountKeys accounts

/-- Opcode 6, `close_account` (lib.rs 464–488). -/
def op_close_account (env : Env) (program_id : Pubkey) (accounts : List AccountInfo)
    (instruction_data : Bytes) : Outcome :=
  match accounts with
  | cake_account :: owner :: _system_program :: _ =>
    if cake_account.owner ≠ program_id then .failure .IncorrectProgramId accounts
    else
      match CakeState.unpack cake_account.data with
      | .error e => .failure e accounts
      | .ok cake_state =>
        if cake_state.owner ≠ owner.key then .failure .InvalidAccountData accounts
        else
          let lam := cake_account.lamports
          .success ((accounts.set 0
            { cake_account with
              lamports := 0
              data := List.replicate cake_account.data.length 0 }).set 1
            { owner with lamports := (owner.lamports + lam) % U64MOD })
  | _ => .failure .NotEnoughAccountKeys accounts

/-- Opcode 7, `close_product_account` (lib.rs 489–528). -/
def op_close_product_account (env : Env) (program_id : Pubkey) (accounts : List AccountInfo)
    (instruction_data : Bytes) : Outcome :=
  match accounts with
  | cake_account :: product_account :: owner :: _system_program :: _ =>
    if cake_account.owner ≠ program_id then .failure .IncorrectProgramId accounts
    else
      match CakeState.unpack cake_account.data with
      | .error e => .failure e accounts
      | .ok cake_state =>
        if cake_state.owner ≠ owner.key then .failure .InvalidAccountData accounts
        else
          match sliceN instruction_data 1 9 with
          | none => .panicked accounts
          | some pidb =>
            let product_id := fromLe pidb
            if product_account.key ≠ (env.fpa [productTag, toLe 8 product_id] program_id).1 then
              .failure .InvalidAccountData accounts
            else if product_account.owner ≠ program_id then
              .failure .IncorrectProgramId accounts
            else
              let lam := product_account.lamports
              .success ((accounts.set 1
                { product_account with
                  lamports := 0
                  data := List.replicate product_account.data.length 0 }).set 2
                { owner with lamports := (owner.lamports + lam) % U64MOD })
  | _ => .failure .NotEnoughAccountKeys accounts

/-- `process_instruction` (lib.rs 140–532): reads `instruction_data[0]`
(panicking on an empty payload, as the source does) and dispatches. -/
def process_instruction (env : Env) (program_id : Pubkey) (accounts : List AccountInfo)
    (instruction_data : Bytes) : Outcome :=
  match byteAt instruction_data 0 with
  | none => .panicked accounts
  | some ins =>
    match ins with
    | 0 => op_init env program_id accounts instruction_data
    | 1 => op_add_product env program_id accounts instruction_data
    | 2 => op_add_stock env program_id accounts instruction_data
    | 3 => op_update_price env program_id accounts instruction_data
    | 4 => op_sell env program_id accounts instruction_data
    | 5 => op_migrate_history env program_id accounts instruction_data
    | 6 => op_close_account env program_id accounts instruction_data
    | 7 => op_close_product_account env program_id accounts instruction_data
    | _ => .failure .InvalidInstructionData accounts

theorem toLe_length (w n : Nat) : (toLe w n).length = w := by
  induction w generalizing n with
  | zero => rfl
  | succ w ih => simp [toLe, ih]

theorem fromLe_cons (b : Nat) (bs : Bytes) : fromLe (b :: bs) = b + 256 * fromLe bs := rfl

theorem fromLe_toLe (w n : Nat) (h : n < 256 ^ w) : fromLe (toLe w n) = n := by
  induction w generalizing n with
  | zero =>
    simp only [toLe, fromLe, List.foldr_nil]
    simp only [pow_zero] at h
    omega
  | succ w ih =>
    have hdiv : n / 256 < 256 ^ w := by
      rw [pow_succ] at h
      omega
    simp only [toLe, fromLe_cons, ih (n / 256) hdiv]
    omega

theorem i64_roundtrip (t : Int) (h1 : -(2 ^ 63) ≤ t) (h2 : t < 2 ^ 63) :
    i64FromLe (i64ToLe t) = t := by
  unfold i64ToLe i64FromLe
  rw [fromLe_toLe 8 _ (by norm_num; omega)]
  by_cases hn : (t % (2 ^ 64 : Int)).toNat < 2 ^ 63
  · simp only [hn, if_true]
    omega
  · simp only [hn, if_false]
    omega

theorem take_len_append (u v : Bytes) (n : Nat) (h : u.length = n) : (u ++ v).take n = u := by
  subst h; exact List.take_left u v

theorem drop_len_append (u v : Bytes) (n : Nat) (h : u.length = n) : (u ++ v).drop n = v := by
  subst h; exact List.drop_left u v

theorem take_len_self (u : Bytes) (n : Nat) (h : u.length = n) : u.take n = u :=
  List.take_of_length_le (le_of_eq h)

/-- The packed `CakeState` buffer of a well-formed state is exactly 48 bytes. -/
theorem cake_pack_length (s : CakeState) (h : s.owner.length = 32) :
    (CakeState.pack_into_slice s).length = 48 := by
  simp [CakeState.pack_into_slice, h, toLe_length]

/-- The packed `Product` buffer of a well-formed product is exactly 184 bytes. -/
theorem product_pack_length (p : Product) (hn : p.name.length = 32)
    (hd : p.description.length = 128) : (Product.pack_into_slice p).length = 184 := by
  simp [Product.pack_into_slice, hn, hd, toLe_length]

/-- The packed `PurchaseHistory` buffer of a well-formed entry is exactly 57 bytes. -/
theorem history_pack_length (h : PurchaseHistory) (hb : h.buyer.length = 32) :
    (PurchaseHistory.pack_into_slice h).length = 57 := by
  simp [PurchaseHistory.pack_into_slice, hb, toLe_length, i64ToLe]

theorem cake_unpack_ok_length {src : Bytes} {cs : CakeState}
    (h : CakeState.unpack src = .ok cs) : src.length = 48 := by
  unfold CakeState.unpack CakeState.unpack_from_slice at h
  by_cases hl : src.length = 48
  · exact hl
  · simp [hl] at h

theorem product_unpack_ok_length {src : Bytes} {p : Product}
    (h : Product.unpack src = .ok p) : src.length = 184 := by
  unfold Product.unpack Product.unpack_from_slice at h
  by_cases hl : src.length = 184
  · exact hl
  · simp [hl] at h

theorem cake_unpack_pack (s : CakeState) (how : s.owner.length = 32)
    (hpc : s.product_counter < U64MOD) (hhc : s.history_counter < U64MOD) :
    CakeState.unpack_from_slice (CakeState.pack_into_slice s) = .ok s := by
  obtain ⟨ow, pc, hc⟩ := s
  simp only [CakeState.pack_into_slice] at *
  have hlen : (ow ++ toLe 8 pc ++ toLe 8 hc).length = 48 := by
    simp [how, toLe_length]
  have e1 : (ow ++ toLe 8 pc ++ toLe 8 hc).take 32 = ow := by
    rw [List.append_assoc, take_len_append _ _ _ how]
  have e2 : (ow ++ toLe 8 pc ++ toLe 8 hc).drop 32 = toLe 8 pc ++ toLe 8 hc := by
    rw [List.append_assoc, drop_len_append _ _ _ how]
  have e3 : (ow ++ toLe 8 pc ++ toLe 8 hc).drop 40 = toLe 8 hc := by
    have : (40 : Nat) = 32 + 8 := by norm_num
    rw [this, ← List.drop_drop, e2, drop_len_append _ _ _ (toLe_length 8 pc)]
  unfold CakeState.unpack_from_slice
  rw [if_neg (not_ne_iff.mpr hlen)]
  simp only [e1, e2, e3, take_len_append _ _ _ (toLe_length 8 pc),
    take_len_self _ _ (toLe_length 8 hc)]
  rw [fromLe_toLe 8 pc (by simpa [U64MOD] using hpc), fromLe_toLe 8 hc (by simpa [U64MOD] using hhc)]

theorem product_unpack_pack (p : Product) (hn : p.name.length = 32)
    (hd : p.description.length = 128) (hid : p.id < U64MOD)
    (hp : p.price < U64MOD) (hs : p.stock < U64MOD) :
    Product.unpack_from_slice (Product.pack_into_slice p) = .ok p := by
  obtain ⟨i, nm, ds, pr, st⟩ := p
  simp only at hn hd hid hp hs
  simp only [Product.pack_into_slice, List.append_assoc]
  set L : Bytes := toLe 8 i ++ (nm ++ (ds ++ (toLe 8 pr ++ toLe 8 st))) with hL
  have hlen : L.length = 184 := by
    simp [hL, List.length_append, hn, hd, toLe_length]
  have e0 : L.take 8 = toLe 8 i := by
    rw [hL, take_len_append _ _ _ (toLe_length 8 i)]
  have e1 : L.drop 8 = nm ++ (ds ++ (toLe 8 pr ++ toLe 8 st)) := by
    rw [hL, drop_len_append _ _ _ (toLe_length 8 i)]
  have e2 : L.drop 40 = ds ++ (toLe 8 pr ++ toLe 8 st) := by
    have : (40 : Nat) = 8 + 32 := by norm_num
    rw [this, ← List.drop_drop, e1, drop_len_append _ _ _ hn]
  have e3 : L.drop 168 = toLe 8 pr ++ toLe 8 st := by
    have : (168 : Nat) = 40 + 128 := by norm_num
    rw [this, ← List.drop_drop, e2, drop_len_append _ _ _ hd]
  have e4 : L.drop 176 = toLe 8 st := by
    have : (176 : Nat) = 168 + 8 := by norm_num
    rw [this, ← List.drop_drop, e3, drop_len_append _ _ _ (toLe_length 8 pr)]
  unfold Product.unpack_from_slice
  rw [if_neg (not_ne_iff.mpr hlen)]
  simp only [e0, e1, e2, e3, e4, take_len_append _ _ _ hn, take_len_append _ _ _ hd,
    take_len_append _ _ _ (toLe_length 8 pr), take_len_self _ _ (toLe_length 8 st)]
  rw [fromLe_toLe 8 i (by simpa [U64MOD] using hid), fromLe_toLe 8 pr (by simpa [U64MOD] using hp),
    fromLe_toLe 8 st (by simpa [U64MOD] using hs)]

theorem i64ToLe_length (t : Int) : (i64ToLe t).length = 8 := toLe_length 8 _

theorem history_unpack_pack (h : PurchaseHistory) (hq : h.quantity < U64MOD)
    (htp : h.total_price < U64MOD) (hb : h.buyer.length = 32)
    (ht1 : -(2 ^ 63) ≤ h.timestamp) (ht2 : h.timestamp < 2 ^ 63) :
    PurchaseHistory.unpack_from_slice (PurchaseHistory.pack_into_slice h) = .ok h := by
  obtain ⟨pid, q, tp, by0, ts⟩ := h
  simp only at hq htp hb ht1 ht2
  simp only [PurchaseHistory.pack_into_slice, List.append_assoc]
  set R : Bytes := toLe 8 q ++ (toLe 8 tp ++ (by0 ++ i64ToLe ts)) with hR
  have hlenR : R.length = 56 := by
    simp [hR, List.length_append, hb, toLe_length, i64ToLe_length]
  have hlen : (pid :: R).length = 57 := by simp [hlenR]
  have d1 : (pid :: R).drop 1 = R := rfl
  have e1 : R.take 8 = toLe 8 q := by
    rw [hR, take_len_append _ _ _ (toLe_length 8 q)]
  have e2 : (pid :: R).drop 9 = toLe 8 tp ++ (by0 ++ i64ToLe ts) := by
    have : (9 : Nat) = 1 + 8 := by norm_num
    rw [this, ← List.drop_drop, d1, hR, drop_len_append _ _ _ (toLe_length 8 q)]
  have e3 : (pid :: R).drop 17 = by0 ++ i64ToLe ts := by
    have : (17 : Nat) = 9 + 8 := by norm_num
    rw [this, ← List.drop_drop, e2, drop_len_append _ _ _ (toLe_length 8 tp)]
  have e4 : (pid :: R).drop 49 = i64ToLe ts := by
    have : (49 : Nat) = 17 + 32 := by norm_num
    rw [this, ← List.drop_drop, e3, drop_len_append _ _ _ hb]
  unfold PurchaseHistory.unpack_from_slice
  rw [if_neg (not_ne_iff.mpr hlen)]
  simp only [List.headD, d1, e1, e2, e3, e4, take_len_append _ _ _ (toLe_length 8 tp),
    take_len_append _ _ _ hb, take_len_self _ _ (i64ToLe_length ts)]
  rw [fromLe_toLe 8 q (by simpa [U64MOD] using hq),
    fromLe_toLe 8 tp (by simpa [U64MOD] using htp), i64_roundtrip ts ht1 ht2]

theorem cake_unpack_size_mismatch (bs : Bytes) (h : bs.length ≠ 48) :
    CakeState.unpack_from_slice bs = .error .InvalidAccountData := by
  unfold CakeState.unpack_from_slice
  rw [if_pos h]

theorem product_unpack_size_mismatch (bs : Bytes) (h : bs.length ≠ 184) :
    Product.unpack_from_slice bs = .error .InvalidAccountData := by
  unfold Product.unpack_from_slice
  rw [if_pos h]

theorem history_unpack_size_mismatch (bs : Bytes) (h : bs.length ≠ 57) :
    PurchaseHistory.unpack_from_slice bs = .error .InvalidAccountData := by
  unfold PurchaseHistory.unpack_from_slice
  rw [if_pos h]

/-- C10: For each of the three record kinds (ShopState/CakeState,
ProductEntry/Product, HistoryEntry/PurchaseHistory) and every well-formed
record value r (field widths as in the Rust types: 32-byte keys, u64
counters/amounts, u8 history product id, i64 timestamp), decoding the
encoding of r yields exactly r; and for every byte buffer whose length
differs from the kind's exact byte length (48 / 184 / 57), decoding fails
with the size-mismatch error (`ProgramError::InvalidAccountData`). -/
theorem C10_codec_roundtrip_and_size :
    (∀ s : CakeState, s.owner.length = 32 → s.product_counter < U64MOD →
        s.history_counter < U64MOD →
        CakeState.unpack_from_slice (CakeState.pack_into_slice s) = .ok s) ∧
    (∀ bs : Bytes, bs.length ≠ 48 →
        CakeState.unpack_from_slice bs = .error .InvalidAccountData) ∧
    (∀ p : Product, p.name.length = 32 → p.description.length = 128 →
        p.id < U64MOD → p.price < U64MOD → p.stock < U64MOD →
        Product.unpack_from_slice (Product.pack_into_slice p) = .ok p) ∧
    (∀ bs : Bytes, bs.length ≠ 184 →
        Product.unpack_from_slice bs = .error .InvalidAccountData) ∧
    (∀ h : PurchaseHistory, h.product_id < 256 → h.quantity < U64MOD →
        h.total_price < U64MOD → h.buyer.length = 32 →
        -(2 ^ 63) ≤ h.timestamp → h.timestamp < 2 ^ 63 →
        PurchaseHistory.unpack_from_slice (PurchaseHistory.pack_into_slice h) = .ok h) ∧
    (∀ bs : Bytes, bs.length ≠ 57 →
        PurchaseHistory.unpack_from_slice bs = .error .InvalidAccountData) := by
  refine ⟨fun s h1 h2 h3 => cake_unpack_pack s h1 h2 h3,
    fun bs h => cake_unpack_size_mismatch bs h,
    fun p h1 h2 h3 h4 h5 => product_unpack_pack p h1 h2 h3 h4 h5,
    fun bs h => product_unpack_size_mismatch bs h,
    fun h h1 h2 h3 h4 h5 h6 => history_unpack_pack h h2 h3 h4 h5 h6,
    fun bs h => history_unpack_size_mismatch bs h⟩

/-- Witness for C10 at concrete records and a concrete bad-length buffer. -/
theorem C10_codec_roundtrip_and_size_witness :
    CakeState.unpack_from_slice
        (CakeState.pack_into_slice ⟨List.replicate 32 7, 5, 9⟩) = .ok ⟨List.replicate 32 7, 5, 9⟩ ∧
    CakeState.unpack_from_slice [1, 2, 3] = .error .InvalidAccountData ∧
    Product.unpack_from_slice
        (Product.pack_into_slice ⟨3, List.replicate 32 65, List.replicate 128 66, 1000000, 100⟩) =
      .ok ⟨3, List.replicate 32 65, List.replicate 128 66, 1000000, 100⟩ ∧
    Product.unpack_from_slice [] = .error .InvalidAccountData ∧
    PurchaseHistory.unpack_from_slice
        (PurchaseHistory.pack_into_slice ⟨2, 10, 10000000, List.replicate 32 9, -5⟩) =
      .ok ⟨2, 10, 10000000, List.replicate 32 9, -5⟩ ∧
    PurchaseHistory.unpack_from_slice (List.replicate 56 0) = .error .InvalidAccountData :=
  ⟨C10_codec_roundtrip_and_size.1 ⟨List.replicate 32 7, 5, 9⟩ (by simp) (by norm_num [U64MOD])
      (by norm_num [U64MOD]),
    C10_codec_roundtrip_and_size.2.1 [1, 2, 3] (by simp),
    C10_codec_roundtrip_and_size.2.2.1 ⟨3, List.replicate 32 65, List.replicate 128 66, 1000000, 100⟩
      (by simp) (by simp) (by norm_num [U64MOD]) (by norm_num [U64MOD]) (by norm_num [U64MOD]),
    C10_codec_roundtrip_and_size.2.2.2.1 [] (by simp),
    C10_codec_roundtrip_and_size.2.2.2.2.1 ⟨2, 10, 10000000, List.replicate 32 9, -5⟩
      (by norm_num) (by norm_num [U64MOD]) (by norm_num [U64MOD]) (by simp)
      (by norm_num) (by norm_num),
    C10_codec_roundtrip_and_size.2.2.2.2.2 (List.replicate 56 0) (by simp)⟩

theorem dispatch0 (env : Env) (pid : Pubkey) (accounts : List AccountInfo) (d : Bytes) :
    process_instruction env pid accounts (0 :: d) = op_init env pid accounts (0 :: d) := rfl

theorem dispatch1 (env : Env) (pid : Pubkey) (accounts : List AccountInfo) (d : Bytes) :
    process_instruction env pid accounts (1 :: d) = op_add_product env pid accounts (1 :: d) := rfl

theorem dispatch2 (env : Env) (pid : Pubkey) (accounts : List AccountInfo) (d : Bytes) :
    process_instruction env pid accounts (2 :: d) = op_add_stock env pid accounts (2 :: d) := rfl

theorem dispatch3 (env : Env) (pid : Pubkey) (accounts : List AccountInfo) (d : Bytes) :
    process_instruction env pid accounts (3 :: d) = op_update_price env pid accounts (3 :: d) := rfl

theorem dispatch4 (env : Env) (pid : Pubkey) (accounts : List AccountInfo) (d : Bytes) :
    process_instruction env pid accounts (4 :: d) = op_sell env pid accounts (4 :: d) := rfl

theorem dispatch5 (env : Env) (pid : Pubkey) (accounts : List AccountInfo) (d : Bytes) :
    process_instruction env pid accounts (5 :: d) =
      op_migrate_history env pid accounts (5 :: d) := rfl

theorem dispatch6 (env : Env) (pid : Pubkey) (accounts : List AccountInfo) (d : Bytes) :
    process_instruction env pid accounts (6 :: d) =
      op_close_account env pid accounts (6 :: d) := rfl

theorem dispatch7 (env : Env) (pid : Pubkey) (accounts : List AccountInfo) (d : Bytes) :
    process_instruction env pid accounts (7 :: d) =
      op_close_product_account env pid accounts (7 :: d) := rfl

theorem sliceN_cons_append1 (x : Nat) (u v : Bytes) (hu : u.length = 8) :
    sliceN (x :: (u ++ v)) 1 9 = some u := by
  unfold sliceN
  rw [if_pos (by simp [hu])]
  simp [List.drop, take_len_append _ _ _ hu]

theorem sliceN_cons_append2 (x : Nat) (u v w : Bytes) (hu : u.length = 8) (hv : v.length = 8) :
    sliceN (x :: (u ++ (v ++ w))) 9 17 = some v := by
  unfold sliceN
  rw [if_pos (by simp [hu, hv]; omega)]
  have hdr : (x :: (u ++ (v ++ w))).drop 9 = v ++ w := by
    have h9 : (9 : Nat) = 1 + 8 := by norm_num
    rw [h9, ← List.drop_drop]
    simp [List.drop, drop_len_append _ _ _ hu]
  rw [hdr]
  simp [take_len_append _ _ _ hv]

/-- The account list left behind by a fully successful sell (opcode 4):
owner credited, buyer debited, product stock decremented, history record
created and written, shop history counter incremented. -/
def sellResult (env : Env) (pid : Pubkey) (a0 a1 a2 a3 a4 a5 a6 a7 : AccountInfo)
    (t : List AccountInfo) (pidb ab : Bytes) (cs : CakeState) (p : Product) :
    List AccountInfo :=
  { a0 with lamports := (a0.lamports + (fromLe ab * p.price) % U64MOD) % U64MOD } ::
  { a1 with data := (CakeState.pack_into_slice
      { cs with history_counter := (cs.history_counter + 1) % U64MOD }) } ::
  { a2 with data := Product.pack_into_slice { p with stock := p.stock - fromLe ab } } ::
  { a3 with lamports := a3.lamports - (fromLe ab * p.price) % U64MOD } ::
  a4 ::
  { a5 with
    lamports := env.rentMin 57
    owner := pid
    data := (PurchaseHistory.pack_into_slice
      ⟨fromLe pidb % 256, fromLe ab, (fromLe ab * p.price) % U64MOD, a3.key, env.clock⟩) } ::
  { a6 with lamports := a6.lamports - env.rentMin 57 } ::
  a7 :: t

/-- Full evaluation of a sell (opcode 4) along the success path: all
authorization, address and stock checks pass and both external invocations
succeed.  The resulting account list is explicit. -/
theorem sell_success_run (env : Env) (pid : Pubkey)
    (a0 a1 a2 a3 a4 a5 a6 a7 : AccountInfo) (t : List AccountInfo)
    (pidb ab dr : Bytes) (cs : CakeState) (p : Product)
    (hpb : pidb.length = 8) (hab : ab.length = 8)
    (h1 : a1.owner = pid)
    (h2 : CakeState.unpack a1.data = .ok cs)
    (h3 : a0.key = cs.owner)
    (h4 : a2.key = (env.fpa [productTag, toLe 8 (fromLe pidb)] pid).1)
    (h5 : Product.unpack a2.data = .ok p)
    (h6 : fromLe ab ≤ p.stock)
    (h7 : env.transfer_ok = true)
    (h8 : a5.key = (env.fpa [historyTag, a3.key, toLe 8 (fromLe pidb),
            toLe 8 cs.history_counter] pid).1)
    (h9 : env.create_ok = true) :
    process_instruction env pid (a0 :: a1 :: a2 :: a3 :: a4 :: a5 :: a6 :: a7 :: t)
        (4 :: (pidb ++ (ab ++ dr))) =
      .success (sellResult env pid a0 a1 a2 a3 a4 a5 a6 a7 t pidb ab cs p) := by
  have hl1 : a1.data.length = 48 := cake_unpack_ok_length h2
  have hl2 : a2.data.length = 184 := product_unpack_ok_length h5
  have hs1 : sliceN (4 :: (pidb ++ (ab ++ dr))) 1 9 = some pidb :=
    sliceN_cons_append1 4 pidb (ab ++ dr) hpb
  have hs2 : sliceN (4 :: (pidb ++ (ab ++ dr))) 9 17 = some ab :=
    sliceN_cons_append2 4 pidb ab dr hpb hab
  have h6' : ¬ (fromLe ab > p.stock) := not_lt.mpr h6
  rw [dispatch4]
  unfold op_sell sellResult
  simp only [h1, h3, h4, h8, hs1, hs2, h2, h5, h7, h9, h6', Product.pack, CakeState.pack,
    PurchaseHistory.pack, hl1, hl2, List.length_replicate, ne_eq, not_true_eq_false,
    Bool.true_eq_false, if_false, ite_false, ite_true, not_false_eq_true, List.set]

/-- Evaluation of a sell (opcode 4) that reaches the stock check with an
oversized quantity: it fails with `InsufficientFunds` and the account
buffers are exactly the initial ones. -/
theorem sell_oversell_run (env : Env) (pid : Pubkey)
    (a0 a1 a2 a3 a4 a5 a6 a7 : AccountInfo) (t : List AccountInfo)
    (pidb ab dr : Bytes) (cs : CakeState) (p : Product)
    (hpb : pidb.length = 8) (hab : ab.length = 8)
    (h1 : a1.owner = pid)
    (h2 : CakeState.unpack a1.data = .ok cs)
    (h3 : a0.key = cs.owner)
    (h4 : a2.key = (env.fpa [productTag, toLe 8 (fromLe pidb)] pid).1)
    (h5 : Product.unpack a2.data = .ok p)
    (h6 : fromLe ab > p.stock) :
    process_instruction env pid (a0 :: a1 :: a2 :: a3 :: a4 :: a5 :: a6 :: a7 :: t)
        (4 :: (pidb ++ (ab ++ dr))) =
      .failure .InsufficientFunds (a0 :: a1 :: a2 :: a3 :: a4 :: a5 :: a6 :: a7 :: t) := by
  have hs1 : sliceN (4 :: (pidb ++ (ab ++ dr))) 1 9 = some pidb :=
    sliceN_cons_append1 4 pidb (ab ++ dr) hpb
  have hs2 : sliceN (4 :: (pidb ++ (ab ++ dr))) 9 17 = some ab :=
    sliceN_cons_append2 4 pidb ab dr hpb hab
  rw [dispatch4]
  unfold op_sell
  simp only [h1, h3, h4, hs1, hs2, h2, h5, h6, ne_eq, not_true_eq_false,
    Bool.true_eq_false, if_false, ite_false, ite_true, not_false_eq_true, if_true]

/-- Evaluation of a sell (opcode 4) in which the external payment transfer
fails: the whole operation aborts with the propagated error, and the account
buffers at the abort are exactly the initial ones (the payment is invoked
before any local mutation). -/
theorem sell_transfer_fail_run (env : Env) (pid : Pubkey)
    (a0 a1 a2 a3 a4 a5 a6 a7 : AccountInfo) (t : List AccountInfo)
    (pidb ab dr : Bytes) (cs : CakeState) (p : Product)
    (hpb : pidb.length = 8) (hab : ab.length = 8)
    (h1 : a1.owner = pid)
    (h2 : CakeState.unpack a1.data = .ok cs)
    (h3 : a0.key = cs.owner)
    (h4 : a2.key = (env.fpa [productTag, toLe 8 (fromLe pidb)] pid).1)
    (h5 : Product.unpack a2.data = .ok p)
    (h6 : fromLe ab ≤ p.stock)
    (h7 : env.transfer_ok = false) :
    process_instruction env pid (a0 :: a1 :: a2 :: a3 :: a4 :: a5 :: a6 :: a7 :: t)
        (4 :: (pidb ++ (ab ++ dr))) =
      .failure .External (a0 :: a1 :: a2 :: a3 :: a4 :: a5 :: a6 :: a7 :: t) := by
  have hs1 : sliceN (4 :: (pidb ++ (ab ++ dr))) 1 9 = some pidb :=
    sliceN_cons_append1 4 pidb (ab ++ dr) hpb
  have hs2 : sliceN (4 :: (pidb ++ (ab ++ dr))) 9 17 = some ab :=
    sliceN_cons_append2 4 pidb ab dr hpb hab
  have h6' : ¬ (fromLe ab > p.stock) := not_lt.mpr h6
  rw [dispatch4]
  unfold op_sell
  simp only [h1, h3, h4, hs1, hs2, h2, h5, h6', h7, ne_eq, not_true_eq_false,
    Bool.true_eq_false, if_false, ite_false, ite_true, not_false_eq_true, if_true]

/-- A 32-byte key whose bytes are all `b` (concrete test fixture). -/
def pk (b : Nat) : Pubkey := List.replicate 32 b

/-- Concrete host-oracle fixture: two-seed PDA derivations (products) resolve
to `pk 2`, four-seed derivations (history) to `pk 5`; both external
invocations succeed; rent is 42 lamports; the clock reads 1000. -/
def demoEnv : Env :=
  ⟨fun seeds _ => if seeds.length = 2 then (pk 2, 0) else (pk 5, 0),
   fun _ => 42, true, true, 1000⟩

/-- Concrete shop state fixture: owner `pk 1`, one product, no sales yet. -/
def demoShop : CakeState := ⟨pk 1, 1, 0⟩

/-- Concrete product record fixture. -/
def demoProductRec (price stock id : Nat) : Product :=
  ⟨id, List.replicate 32 0, List.replicate 128 0, price, stock⟩

def demoOwner : AccountInfo := ⟨pk 1, false, 100, [], []⟩

def demoCake : AccountInfo := ⟨pk 8, false, 10, CakeState.pack_into_slice demoShop, pk 9⟩

def demoProd (price stock id : Nat) : AccountInfo :=
  ⟨pk 2, false, 42, Product.pack_into_slice (demoProductRec price stock id), pk 9⟩

def demoBuyer : AccountInfo := ⟨pk 3, true, 1000, [], []⟩

def demoSys : AccountInfo := ⟨pk 0, false, 0, [], []⟩

def demoHist : AccountInfo := ⟨pk 5, false, 0, [], []⟩

def demoPayer : AccountInfo := ⟨pk 6, false, 500, [], []⟩

def demoClock : AccountInfo := ⟨pk 7, false, 0, [], []⟩

/-- Concrete account list for a sell, in the order opcode 4 reads them. -/
def demoAccounts (price stock id : Nat) : List AccountInfo :=
  [demoOwner, demoCake, demoProd price stock id, demoBuyer, demoSys, demoHist,
   demoPayer, demoClock]

/-- Concrete sell payload: opcode 4, product id, quantity (both u64 LE). -/
def demoSellData (pidv amount : Nat) : Bytes := 4 :: (toLe 8 pidv ++ (toLe 8 amount ++ []))

/-- C1: For every sell (opcode 4) reaching the stock check on a product with
stock `p.stock` and requested quantity `q = fromLe ab`: (i) if `q ≤ p.stock`
the operation can complete, and when the externals succeed the persisted
product record has stock `p.stock - q`; (ii) if `q > p.stock` the operation
fails with the insufficient-stock error (`ProgramError::InsufficientFunds`)
and the account state at the abort is byte-for-byte the initial one — no
product field, no shop counter, nothing is mutated. -/
theorem C1_sell_stock_guard (env : Env) (pid : Pubkey)
    (a0 a1 a2 a3 a4 a5 a6 a7 : AccountInfo) (t : List AccountInfo)
    (pidb ab dr : Bytes) (cs : CakeState) (p : Product)
    (hpb : pidb.length = 8) (hab : ab.length = 8)
    (h1 : a1.owner = pid)
    (h2 : CakeState.unpack a1.data = .ok cs)
    (h3 : a0.key = cs.owner)
    (h4 : a2.key = (env.fpa [productTag, toLe 8 (fromLe pidb)] pid).1)
    (h5 : Product.unpack a2.data = .ok p) :
    (fromLe ab ≤ p.stock → env.transfer_ok = true →
      a5.key = (env.fpa [historyTag, a3.key, toLe 8 (fromLe pidb),
        toLe 8 cs.history_counter] pid).1 → env.create_ok = true →
      process_instruction env pid (a0 :: a1 :: a2 :: a3 :: a4 :: a5 :: a6 :: a7 :: t)
          (4 :: (pidb ++ (ab ++ dr))) =
        .success (sellResult env pid a0 a1 a2 a3 a4 a5 a6 a7 t pidb ab cs p) ∧
      (sellResult env pid a0 a1 a2 a3 a4 a5 a6 a7 t pidb ab cs p).get? 2 =
        some { a2 with
          data := Product.pack_into_slice { p with stock := p.stock - fromLe ab } }) ∧
    (fromLe ab > p.stock →
      process_instruction env pid (a0 :: a1 :: a2 :: a3 :: a4 :: a5 :: a6 :: a7 :: t)
          (4 :: (pidb ++ (ab ++ dr))) =
        .failure .InsufficientFunds (a0 :: a1 :: a2 :: a3 :: a4 :: a5 :: a6 :: a7 :: t)) := by
  constructor
  · intro h6 h7 h8 h9
    exact ⟨sell_success_run env pid a0 a1 a2 a3 a4 a5 a6 a7 t pidb ab dr cs p hpb hab
      h1 h2 h3 h4 h5 h6 h7 h8 h9, rfl⟩
  · intro h6
    exact sell_oversell_run env pid a0 a1 a2 a3 a4 a5 a6 a7 t pidb ab dr cs p hpb hab
      h1 h2 h3 h4 h5 h6

set_option maxRecDepth 40000 in
/-- Witness for C1: a concrete in-stock sale (stock 10, quantity 3) succeeds
and persists stock 7; a concrete oversell (quantity 20) fails with
`InsufficientFunds` leaving the accounts untouched. -/
theorem C1_sell_stock_guard_witness :
    (process_instruction demoEnv (pk 9) (demoAccounts 2 10 0) (demoSellData 0 3) =
        .success (sellResult demoEnv (pk 9) demoOwner demoCake (demoProd 2 10 0) demoBuyer
          demoSys demoHist demoPayer demoClock [] (toLe 8 0) (toLe 8 3) demoShop
          (demoProductRec 2 10 0)) ∧
      (sellResult demoEnv (pk 9) demoOwner demoCake (demoProd 2 10 0) demoBuyer
          demoSys demoHist demoPayer demoClock [] (toLe 8 0) (toLe 8 3) demoShop
          (demoProductRec 2 10 0)).get? 2 =
        some { demoProd 2 10 0 with
          data := Product.pack_into_slice { demoProductRec 2 10 0 with stock := 10 - fromLe (toLe 8 3) } }) ∧
    process_instruction demoEnv (pk 9) (demoAccounts 2 10 0) (demoSellData 0 20) =
      .failure .InsufficientFunds (demoAccounts 2 10 0) := by
  constructor
  · exact (C1_sell_stock_guard demoEnv (pk 9) demoOwner demoCake (demoProd 2 10 0) demoBuyer
      demoSys demoHist demoPayer demoClock [] (toLe 8 0) (toLe 8 3) [] demoShop
      (demoProductRec 2 10 0) (by decide) (by decide) (by decide) (by rfl) (by decide)
      (by decide) (by rfl)).1 (by decide) (by decide) (by decide) (by decide)
  · exact (C1_sell_stock_guard demoEnv (pk 9) demoOwner demoCake (demoProd 2 10 0) demoBuyer
      demoSys demoHist demoPayer demoClock [] (toLe 8 0) (toLe 8 20) [] demoShop
      (demoProductRec 2 10 0) (by decide) (by decide) (by decide) (by rfl) (by decide)
      (by decide) (by rfl)).2 (by decide)

/-- C2: For every sell (opcode 4) in which the external value-transfer
collaborator fails (the system-program payment invocation returns an error),
the whole operation aborts with that error and the account state at the
abort is exactly the initial one: the product data (stock), the shop state
(history_counter) and the history slot are all untouched — the payment is
invoked strictly before any local mutation. -/
theorem C2_sell_payment_fail_aborts (env : Env) (pid : Pubkey)
    (a0 a1 a2 a3 a4 a5 a6 a7 : AccountInfo) (t : List AccountInfo)
    (pidb ab dr : Bytes) (cs : CakeState) (p : Product)
    (hpb : pidb.length = 8) (hab : ab.length = 8)
    (h1 : a1.owner = pid)
    (h2 : CakeState.unpack a1.data = .ok cs)
    (h3 : a0.key = cs.owner)
    (h4 : a2.key = (env.fpa [productTag, toLe 8 (fromLe pidb)] pid).1)
    (h5 : Product.unpack a2.data = .ok p)
    (h6 : fromLe ab ≤ p.stock)
    (h7 : env.transfer_ok = false) :
    process_instruction env pid (a0 :: a1 :: a2 :: a3 :: a4 :: a5 :: a6 :: a7 :: t)
        (4 :: (pidb ++ (ab ++ dr))) =
      .failure .External (a0 :: a1 :: a2 :: a3 :: a4 :: a5 :: a6 :: a7 :: t) :=
  sell_transfer_fail_run env pid a0 a1 a2 a3 a4 a5 a6 a7 t pidb ab dr cs p hpb hab
    h1 h2 h3 h4 h5 h6 h7

/-- Same host-oracle fixture as `demoEnv` but the payment transfer fails. -/
def demoEnvNoPay : Env :=
  ⟨fun seeds _ => if seeds.length = 2 then (pk 2, 0) else (pk 5, 0),
   fun _ => 42, false, true, 1000⟩

set_option maxRecDepth 40000 in
/-- Witness for C2: a concrete in-stock sale whose payment transfer fails
aborts with the propagated error and leaves every account untouched. -/
theorem C2_sell_payment_fail_aborts_witness :
    process_instruction demoEnvNoPay (pk 9) (demoAccounts 2 10 0) (demoSellData 0 3) =
      .failure .External (demoAccounts 2 10 0) :=
  C2_sell_payment_fail_aborts demoEnvNoPay (pk 9) demoOwner demoCake (demoProd 2 10 0)
    demoBuyer demoSys demoHist demoPayer demoClock [] (toLe 8 0) (toLe 8 3) [] demoShop
    (demoProductRec 2 10 0) (by decide) (by decide) (by decide) (by rfl) (by decide)
    (by decide) (by rfl) (by decide) (by rfl)

/-- Discriminates a successful outcome (used by concrete counterexamples). -/
def Outcome.isOk : Outcome → Bool
  | .success _ => true
  | _ => false

set_option maxRecDepth 40000 in
/-- Counterexample to C3: quantity `2^32` at price `2^32` makes
`quantity * price = 2^64`, which exceeds `u64::MAX`; the claim says this
sell must fail with the arithmetic-overflow error and mutate nothing, but
the code computes `amount * product.price` with plain (wrapping)
multiplication and the sale completes. -/
theorem C3_counterexample :
    (2 : Nat) ^ 64 - 1 < 2 ^ 32 * 2 ^ 32 ∧
    (process_instruction demoEnv (pk 9) (demoAccounts (2 ^ 32) (2 ^ 32) 0)
        (demoSellData 0 (2 ^ 32))).isOk = true := by
  constructor
  · norm_num
  · decide

/-- C3 amended: the sell total is computed with wrapping (mod `2^64`)
multiplication — there is no overflow check.  When
`quantity * price ≥ 2^64` the sell does not fail with an overflow error:
with stock and externals permitting it completes, and the history record
stores the wrapped total `(quantity * price) % 2^64`, which differs from
the mathematical product. -/
theorem C3_sell_total_wraps (env : Env) (pid : Pubkey)
    (a0 a1 a2 a3 a4 a5 a6 a7 : AccountInfo) (t : List AccountInfo)
    (pidb ab dr : Bytes) (cs : CakeState) (p : Product)
    (hpb : pidb.length = 8) (hab : ab.length = 8)
    (h1 : a1.owner = pid)
    (h2 : CakeState.unpack a1.data = .ok cs)
    (h3 : a0.key = cs.owner)
    (h4 : a2.key = (env.fpa [productTag, toLe 8 (fromLe pidb)] pid).1)
    (h5 : Product.unpack a2.data = .ok p)
    (h6 : fromLe ab ≤ p.stock)
    (h7 : env.transfer_ok = true)
    (h8 : a5.key = (env.fpa [historyTag, a3.key, toLe 8 (fromLe pidb),
            toLe 8 cs.history_counter] pid).1)
    (h9 : env.create_ok = true)
    (hov : U64MOD ≤ fromLe ab * p.price) :
    process_instruction env pid (a0 :: a1 :: a2 :: a3 :: a4 :: a5 :: a6 :: a7 :: t)
        (4 :: (pidb ++ (ab ++ dr))) =
      .success (sellResult env pid a0 a1 a2 a3 a4 a5 a6 a7 t pidb ab cs p) ∧
    (sellResult env pid a0 a1 a2 a3 a4 a5 a6 a7 t pidb ab cs p).get? 5 =
      some { a5 with
        lamports := env.rentMin 57
        owner := pid
        data := (PurchaseHistory.pack_into_slice
          ⟨fromLe pidb % 256, fromLe ab, (fromLe ab * p.price) % U64MOD,
            a3.key, env.clock⟩) } ∧
    (fromLe ab * p.price) % U64MOD ≠ fromLe ab * p.price := by
  refine ⟨sell_success_run env pid a0 a1 a2 a3 a4 a5 a6 a7 t pidb ab dr cs p hpb hab
    h1 h2 h3 h4 h5 h6 h7 h8 h9, rfl, ?_⟩
  have hlt : (fromLe ab * p.price) % U64MOD < U64MOD :=
    Nat.mod_lt _ (by unfold U64MOD; positivity)
  omega

set_option maxRecDepth 40000 in
/-- Witness for the amended C3 at the concrete overflowing sale. -/
theorem C3_sell_total_wraps_witness :
    process_instruction demoEnv (pk 9) (demoAccounts (2 ^ 32) (2 ^ 32) 0)
        (demoSellData 0 (2 ^ 32)) =
      .success (sellResult demoEnv (pk 9) demoOwner demoCake (demoProd (2 ^ 32) (2 ^ 32) 0)
        demoBuyer demoSys demoHist demoPayer demoClock [] (toLe 8 0) (toLe 8 (2 ^ 32))
        demoShop (demoProductRec (2 ^ 32) (2 ^ 32) 0)) ∧
    (sellResult demoEnv (pk 9) demoOwner demoCake (demoProd (2 ^ 32) (2 ^ 32) 0)
        demoBuyer demoSys demoHist demoPayer demoClock [] (toLe 8 0) (toLe 8 (2 ^ 32))
        demoShop (demoProductRec (2 ^ 32) (2 ^ 32) 0)).get? 5 =
      some { demoHist with
        lamports := demoEnv.rentMin 57
        owner := pk 9
        data := (PurchaseHistory.pack_into_slice
          ⟨fromLe (toLe 8 0) % 256, fromLe (toLe 8 (2 ^ 32)),
            (fromLe (toLe 8 (2 ^ 32)) * (demoProductRec (2 ^ 32) (2 ^ 32) 0).price) % U64MOD,
            demoBuyer.key, demoEnv.clock⟩) } ∧
    (fromLe (toLe 8 (2 ^ 32)) * (demoProductRec (2 ^ 32) (2 ^ 32) 0).price) % U64MOD ≠
      fromLe (toLe 8 (2 ^ 32)) * (demoProductRec (2 ^ 32) (2 ^ 32) 0).price :=
  C3_sell_total_wraps demoEnv (pk 9) demoOwner demoCake (demoProd (2 ^ 32) (2 ^ 32) 0)
    demoBuyer demoSys demoHist demoPayer demoClock [] (toLe 8 0) (toLe 8 (2 ^ 32)) []
    demoShop (demoProductRec (2 ^ 32) (2 ^ 32) 0) (by decide) (by decide) (by decide)
    (by rfl) (by decide) (by decide) (by rfl) (by decide) (by rfl) (by decide) (by rfl)
    (by decide)

/-- The data bytes of the history account (position 5) after a sell, when
the outcome is a success (used by concrete counterexamples). -/
def histDataOf (o : Outcome) : Option Bytes :=
  match o with
  | .success l => (l.get? 5).map AccountInfo.data
  | _ => none

set_option maxRecDepth 40000 in
/-- Counterexample to C8: a successful sell of the product with payload id
256 creates a history record whose stored product id decodes to 0, not 256:
`PurchaseHistory.product_id` is a single byte and the code truncates the
u64 payload id with `as u8`. -/
theorem C8_counterexample :
    histDataOf (process_instruction demoEnv (pk 9) (demoAccounts 2 10 256)
        (demoSellData 256 3)) =
      some (PurchaseHistory.pack_into_slice ⟨0, 3, 6, pk 3, 1000⟩) ∧
    PurchaseHistory.unpack_from_slice (PurchaseHistory.pack_into_slice ⟨0, 3, 6, pk 3, 1000⟩) =
      .ok ⟨0, 3, 6, pk 3, 1000⟩ ∧
    (0 : Nat) ≠ 256 := by
  refine ⟨by decide, by rfl, by decide⟩

/-- C8 amended: `PurchaseHistory.product_id` is a one-byte field; a
successful sell with payload product id `fromLe pidb` records
`fromLe pidb % 256` in the created history record, and that equals the
payload id exactly when the id is below 256. -/
theorem C8_history_product_id_truncated (env : Env) (pid : Pubkey)
    (a0 a1 a2 a3 a4 a5 a6 a7 : AccountInfo) (t : List AccountInfo)
    (pidb ab dr : Bytes) (cs : CakeState) (p : Product)
    (hpb : pidb.length = 8) (hab : ab.length = 8)
    (h1 : a1.owner = pid)
    (h2 : CakeState.unpack a1.data = .ok cs)
    (h3 : a0.key = cs.owner)
    (h4 : a2.key = (env.fpa [productTag, toLe 8 (fromLe pidb)] pid).1)
    (h5 : Product.unpack a2.data = .ok p)
    (h6 : fromLe ab ≤ p.stock)
    (h7 : env.transfer_ok = true)
    (h8 : a5.key = (env.fpa [historyTag, a3.key, toLe 8 (fromLe pidb),
            toLe 8 cs.history_counter] pid).1)
    (h9 : env.create_ok = true) :
    process_instruction env pid (a0 :: a1 :: a2 :: a3 :: a4 :: a5 :: a6 :: a7 :: t)
        (4 :: (pidb ++ (ab ++ dr))) =
      .success (sellResult env pid a0 a1 a2 a3 a4 a5 a6 a7 t pidb ab cs p) ∧
    ((sellResult env pid a0 a1 a2 a3 a4 a5 a6 a7 t pidb ab cs p).get? 5).map
        (fun a => a.data.headD 0) = some (fromLe pidb % 256) ∧
    (fromLe pidb % 256 = fromLe pidb ↔ fromLe pidb < 256) := by
  refine ⟨sell_success_run env pid a0 a1 a2 a3 a4 a5 a6 a7 t pidb ab dr cs p hpb hab
    h1 h2 h3 h4 h5 h6 h7 h8 h9, by rfl, by omega⟩

set_option maxRecDepth 40000 in
/-- Witness for the amended C8 at the concrete id-256 sale. -/
theorem C8_history_product_id_truncated_witness :
    process_instruction demoEnv (pk 9) (demoAccounts 2 10 256) (demoSellData 256 3) =
      .success (sellResult demoEnv (pk 9) demoOwner demoCake (demoProd 2 10 256)
        demoBuyer demoSys demoHist demoPayer demoClock [] (toLe 8 256) (toLe 8 3)
        demoShop (demoProductRec 2 10 256)) ∧
    ((sellResult demoEnv (pk 9) demoOwner demoCake (demoProd 2 10 256)
        demoBuyer demoSys demoHist demoPayer demoClock [] (toLe 8 256) (toLe 8 3)
        demoShop (demoProductRec 2 10 256)).get? 5).map
      (fun a => a.data.headD 0) = some (fromLe (toLe 8 256) % 256) ∧
    (fromLe (toLe 8 256) % 256 = fromLe (toLe 8 256) ↔ fromLe (toLe 8 256) < 256) :=
  C8_history_product_id_truncated demoEnv (pk 9) demoOwner demoCake (demoProd 2 10 256)
    demoBuyer demoSys demoHist demoPayer demoClock [] (toLe 8 256) (toLe 8 3) []
    demoShop (demoProductRec 2 10 256) (by decide) (by decide) (by decide) (by rfl)
    (by decide) (by decide) (by rfl) (by decide) (by rfl) (by decide) (by rfl)

set_option maxRecDepth 40000 in
/-- Counterexample to C4: `initialize` (opcode 0) on a slot that already
holds a recognizable ShopState (owner `pk 1`, product_counter 1) does not
fail with an already-initialized error: it succeeds and overwrites the
stored bytes with a fresh state owned by the supplied key `pk 4`.  The
source's `IsInitialized` impl returns `true` unconditionally and opcode 0
uses `unpack_unchecked`, so no initialization check exists. -/
theorem C4_counterexample :
    process_instruction demoEnv (pk 9) [demoCake, ⟨pk 4, true, 7, [], []⟩, demoPayer, demoSys]
        [0] =
      .success [{ demoCake with data := CakeState.pack_into_slice ⟨pk 4, 0, 0⟩ },
        ⟨pk 4, true, 7, [], []⟩, demoPayer, demoSys] ∧
    CakeState.pack_into_slice ⟨pk 4, 0, 0⟩ ≠ CakeState.pack_into_slice demoShop := by
  refine ⟨by decide, by decide⟩

/-- C4 amended: there is no already-initialized check.  `initialize`
(opcode 0) on any program-owned 48-byte slot — initialized or not —
succeeds and overwrites the slot with a ShopState whose owner is the
supplied owner key and whose counters are both zero; the previously stored
owner and counters are lost. -/
theorem C4_reinit_overwrites (env : Env) (pid : Pubkey)
    (c o py s : AccountInfo) (t : List AccountInfo) (dr : Bytes)
    (h1 : c.owner = pid) (h2 : c.data.length = 48) :
    process_instruction env pid (c :: o :: py :: s :: t) (0 :: dr) =
      .success ({ c with data := CakeState.pack_into_slice ⟨o.key, 0, 0⟩ } :: o :: py :: s :: t) := by
  rw [dispatch0]
  unfold op_init
  simp only [h1, h2, CakeState.unpack_unchecked, CakeState.unpack_from_slice, CakeState.pack,
    ne_eq, not_true_eq_false, Bool.true_eq_false, if_false, ite_false, ite_true,
    not_false_eq_true, List.set, cake_pack_length]

set_option maxRecDepth 40000 in
/-- Witness for the amended C4: re-initializing the concrete shop slot
(owner `pk 1`, counters 1/0) with new owner key `pk 4` succeeds and leaves
the freshly zeroed state. -/
theorem C4_reinit_overwrites_witness :
    process_instruction demoEnv (pk 9) [demoCake, ⟨pk 4, true, 7, [], []⟩, demoPayer, demoSys]
        [0] =
      .success ({ demoCake with data := CakeState.pack_into_slice ⟨pk 4, 0, 0⟩ } ::
        ⟨pk 4, true, 7, [], []⟩ :: demoPayer :: demoSys :: []) :=
  C4_reinit_overwrites demoEnv (pk 9) demoCake ⟨pk 4, true, 7, [], []⟩ demoPayer demoSys []
    [] (by decide) (by decide)

set_option maxRecDepth 40000 in
/-- Counterexample to C5: the empty payload is not rejected with an
invalid-payload error — the dispatcher reads `instruction_data[0]` without
any length validation and panics with an out-of-bounds index (aborting the
transaction), which is a different observable outcome than the claimed
error return. -/
theorem C5_counterexample :
    process_instruction demoEnv (pk 9) (demoAccounts 2 10 0) [] =
      .panicked (demoAccounts 2 10 0) ∧
    Outcome.panicked (demoAccounts 2 10 0) ≠
      Outcome.failure .InvalidInstructionData (demoAccounts 2 10 0) := by
  refine ⟨by decide, by decide⟩

/-- C5 amended: payload length is never validated.  The empty payload makes
the dispatcher panic (out-of-bounds index) for every account list, and a
payload consisting of the sell opcode alone — shorter than the 17-byte sell
layout — reaches the field slicing and panics there rather than failing
with an invalid-payload error. -/
theorem C5_no_length_validation (env : Env) (pid : Pubkey) :
    (∀ accounts : List AccountInfo, ∀ d : Bytes, d = [] →
      process_instruction env pid accounts d = .panicked accounts) ∧
    (∀ (a0 a1 a2 a3 a4 a5 a6 a7 : AccountInfo) (t : List AccountInfo) (cs : CakeState),
      a1.owner = pid → CakeState.unpack a1.data = .ok cs → a0.key = cs.owner →
      process_instruction env pid (a0 :: a1 :: a2 :: a3 :: a4 :: a5 :: a6 :: a7 :: t) [4] =
        .panicked (a0 :: a1 :: a2 :: a3 :: a4 :: a5 :: a6 :: a7 :: t)) := by
  constructor
  · intro accounts d hd
    subst hd
    rfl
  · intro a0 a1 a2 a3 a4 a5 a6 a7 t cs h1 h2 h3
    rw [dispatch4]
    unfold op_sell
    simp only [h1, h2, h3, sliceN, ne_eq, not_true_eq_false, Bool.true_eq_false, if_false,
      ite_false, ite_true, not_false_eq_true, List.length_cons, List.length_nil]
    norm_num

set_option maxRecDepth 40000 in
/-- Witness for the amended C5: the empty payload and the bare sell opcode
both panic on the concrete shop fixture. -/
theorem C5_no_length_validation_witness :
    process_instruction demoEnv (pk 9) (demoAccounts 2 10 0) [] =
      .panicked (demoAccounts 2 10 0) ∧
    process_instruction demoEnv (pk 9) (demoAccounts 2 10 0) [4] =
      .panicked (demoAccounts 2 10 0) :=
  ⟨(C5_no_length_validation demoEnv (pk 9)).1 (demoAccounts 2 10 0) [] (by rfl),
   (C5_no_length_validation demoEnv (pk 9)).2 demoOwner demoCake (demoProd 2 10 0) demoBuyer
     demoSys demoHist demoPayer demoClock [] demoShop (by decide) (by rfl) (by decide)⟩

set_option maxRecDepth 40000 in
/-- Counterexample to C6: `migrate_history` (opcode 5) loads no ShopState
and compares no caller identity to any owner.  A concrete invocation by
accounts none of whose keys is the shop owner (`pk 1`) succeeds and writes
a fully attacker-chosen HistoryEntry. -/
theorem C6_counterexample :
    process_instruction demoEnv (pk 9) [demoHist, demoPayer, demoSys, demoBuyer]
        (5 :: 0 :: 7 :: (toLe 8 2 ++ (toLe 8 50 ++ (pk 4 ++ toLe 8 123)))) =
      .success [{ demoHist with
                  lamports := 42
                  owner := pk 9
                  data := PurchaseHistory.pack_into_slice ⟨7, 2, 50, pk 4, 123⟩ },
                { demoPayer with lamports := 500 - 42 }, demoSys, demoBuyer] ∧
    demoHist.key ≠ demoShop.owner ∧ demoPayer.key ≠ demoShop.owner ∧
    demoSys.key ≠ demoShop.owner ∧ demoBuyer.key ≠ demoShop.owner := by
  refine ⟨by decide, by decide, by decide, by decide, by decide⟩

set_option maxRecDepth 10000 in
/-- C6 amended: for opcodes 1 (add-product), 2 (add-stock), 3 (update-price),
4 (sell), 6 (close-shop) and 7 (close-product), a caller-presented identity
different from `ShopState.owner` makes the operation fail with the
unauthorized error (`ProgramError::InvalidAccountData` in this code) with
the account state at the abort exactly the initial one — in particular a
non-owner update-price leaves the price unchanged.  Opcode 5
(migrate-history) is excluded: it performs no owner check at all (see the
counterexample). -/
theorem C6_owner_check_except_migrate (env : Env) (pid : Pubkey) :
    (∀ (c pr o py s : AccountInfo) (t : List AccountInfo) (d : Bytes) (cs : CakeState),
      c.owner = pid → CakeState.unpack c.data = .ok cs → o.key ≠ cs.owner →
      process_instruction env pid (c :: pr :: o :: py :: s :: t) (1 :: d) =
        .failure .InvalidAccountData (c :: pr :: o :: py :: s :: t)) ∧
    (∀ (c pr o : AccountInfo) (t : List AccountInfo) (d : Bytes) (cs : CakeState),
      c.owner = pid → CakeState.unpack c.data = .ok cs → o.key ≠ cs.owner →
      process_instruction env pid (c :: pr :: o :: t) (2 :: d) =
        .failure .InvalidAccountData (c :: pr :: o :: t)) ∧
    (∀ (c pr o : AccountInfo) (t : List AccountInfo) (d : Bytes) (cs : CakeState),
      c.owner = pid → CakeState.unpack c.data = .ok cs → o.key ≠ cs.owner →
      process_instruction env pid (c :: pr :: o :: t) (3 :: d) =
        .failure .InvalidAccountData (c :: pr :: o :: t)) ∧
    (∀ (o c pr b s h py ck : AccountInfo) (t : List AccountInfo) (d : Bytes) (cs : CakeState),
      c.owner = pid → CakeState.unpack c.data = .ok cs → o.key ≠ cs.owner →
      process_instruction env pid (o :: c :: pr :: b :: s :: h :: py :: ck :: t) (4 :: d) =
        .failure .InvalidAccountData (o :: c :: pr :: b :: s :: h :: py :: ck :: t)) ∧
    (∀ (c o s : AccountInfo) (t : List AccountInfo) (d : Bytes) (cs : CakeState),
      c.owner = pid → CakeState.unpack c.data = .ok cs → o.key ≠ cs.owner →
      process_instruction env pid (c :: o :: s :: t) (6 :: d) =
        .failure .InvalidAccountData (c :: o :: s :: t)) ∧
    (∀ (c pr o s : AccountInfo) (t : List AccountInfo) (d : Bytes) (cs : CakeState),
      c.owner = pid → CakeState.unpack c.data = .ok cs → o.key ≠ cs.owner →
      process_instruction env pid (c :: pr :: o :: s :: t) (7 :: d) =
        .failure .InvalidAccountData (c :: pr :: o :: s :: t)) := by
  refine ⟨?_, ?_, ?_, ?_, ?_, ?_⟩
  · intro c pr o py s t d cs h1 h2 ho
    have ho2 : cs.owner ≠ o.key := fun e => ho e.symm
    rw [dispatch1]
    unfold op_add_product
    simp only [h1, h2, ho2, ne_eq, not_true_eq_false, Bool.true_eq_false, if_false,
      ite_false, ite_true, not_false_eq_true, if_true]
  · intro c pr o t d cs h1 h2 ho
    have ho2 : cs.owner ≠ o.key := fun e => ho e.symm
    rw [dispatch2]
    unfold op_add_stock
    simp only [h1, h2, ho2, ne_eq, not_true_eq_false, Bool.true_eq_false, if_false,
      ite_false, ite_true, not_false_eq_true, if_true]
  · intro c pr o t d cs h1 h2 ho
    have ho2 : cs.owner ≠ o.key := fun e => ho e.symm
    rw [dispatch3]
    unfold op_update_price
    simp only [h1, h2, ho2, ne_eq, not_true_eq_false, Bool.true_eq_false, if_false,
      ite_false, ite_true, not_false_eq_true, if_true]
  · intro o c pr b s h py ck t d cs h1 h2 ho
    have ho2 : cs.owner ≠ o.key := fun e => ho e.symm
    rw [dispatch4]
    unfold op_sell
    simp only [h1, h2, ho2, ne_eq, not_true_eq_false, Bool.true_eq_false, if_false,
      ite_false, ite_true, not_false_eq_true, if_true]
  · intro c o s t d cs h1 h2 ho
    have ho2 : cs.owner ≠ o.key := fun e => ho e.symm
    rw [dispatch6]
    unfold op_close_account
    simp only [h1, h2, ho2, ne_eq, not_true_eq_false, Bool.true_eq_false, if_false,
      ite_false, ite_true, not_false_eq_true, if_true]
  · intro c pr o s t d cs h1 h2 ho
    have ho2 : cs.owner ≠ o.key := fun e => ho e.symm
    rw [dispatch7]
    unfold op_close_product_account
    simp only [h1, h2, ho2, ne_eq, not_true_eq_false, Bool.true_eq_false, if_false,
      ite_false, ite_true, not_false_eq_true, if_true]

/-- A non-owner caller account fixture (key `pk 4` differs from the shop
owner `pk 1`). -/
def demoIntruder : AccountInfo := ⟨pk 4, true, 3, [], []⟩

set_option maxRecDepth 100000 in
/-- Witness for the amended C6: with the concrete shop fixture and intruder
key `pk 4`, each of the six owner-checked opcodes fails with
`InvalidAccountData` leaving the accounts untouched. -/
theorem C6_owner_check_except_migrate_witness :
    process_instruction demoEnv (pk 9) [demoCake, demoHist, demoIntruder, demoPayer, demoSys]
        [1] = .failure .InvalidAccountData
          [demoCake, demoHist, demoIntruder, demoPayer, demoSys] ∧
    process_instruction demoEnv (pk 9) [demoCake, demoProd 2 10 0, demoIntruder] [2] =
      .failure .InvalidAccountData [demoCake, demoProd 2 10 0, demoIntruder] ∧
    process_instruction demoEnv (pk 9) [demoCake, demoProd 2 10 0, demoIntruder] [3] =
      .failure .InvalidAccountData [demoCake, demoProd 2 10 0, demoIntruder] ∧
    process_instruction demoEnv (pk 9)
        [demoIntruder, demoCake, demoProd 2 10 0, demoBuyer, demoSys, demoHist, demoPayer,
          demoClock] [4] =
      .failure .InvalidAccountData
        [demoIntruder, demoCake, demoProd 2 10 0, demoBuyer, demoSys, demoHist, demoPayer,
          demoClock] ∧
    process_instruction demoEnv (pk 9) [demoCake, demoIntruder, demoSys] [6] =
      .failure .InvalidAccountData [demoCake, demoIntruder, demoSys] ∧
    process_instruction demoEnv (pk 9) [demoCake, demoProd 2 10 0, demoIntruder, demoSys] [7] =
      .failure .InvalidAccountData [demoCake, demoProd 2 10 0, demoIntruder, demoSys] :=
  ⟨(C6_owner_check_except_migrate demoEnv (pk 9)).1 demoCake demoHist demoIntruder demoPayer
     demoSys [] [] demoShop (by decide) (by rfl) (by decide),
   (C6_owner_check_except_migrate demoEnv (pk 9)).2.1 demoCake (demoProd 2 10 0) demoIntruder
     [] [] demoShop (by decide) (by rfl) (by decide),
   (C6_owner_check_except_migrate demoEnv (pk 9)).2.2.1 demoCake (demoProd 2 10 0) demoIntruder
     [] [] demoShop (by decide) (by rfl) (by decide),
   (C6_owner_check_except_migrate demoEnv (pk 9)).2.2.2.1 demoIntruder demoCake
     (demoProd 2 10 0) demoBuyer demoSys demoHist demoPayer demoClock [] [] demoShop
     (by decide) (by rfl) (by decide),
   (C6_owner_check_except_migrate demoEnv (pk 9)).2.2.2.2.1 demoCake demoIntruder demoSys
     [] [] demoShop (by decide) (by rfl) (by decide),
   (C6_owner_check_except_migrate demoEnv (pk 9)).2.2.2.2.2 demoCake (demoProd 2 10 0)
     demoIntruder demoSys [] [] demoShop (by decide) (by rfl) (by decide)⟩

set_option maxRecDepth 40000 in
/-- Counterexample to C9: a successful sell of quantity `2^63` at price 3
stores `total_price = 2^63` (the wrapped value of `3 * 2^63`), which is not
`quantity * price`.  The history record therefore does not always hold the
mathematical product of quantity and the sale-time price. -/
theorem C9_counterexample :
    histDataOf (process_instruction demoEnv (pk 9) (demoAccounts 3 (2 ^ 63) 0)
        (demoSellData 0 (2 ^ 63))) =
      some (PurchaseHistory.pack_into_slice ⟨0, 2 ^ 63, 2 ^ 63, pk 3, 1000⟩) ∧
    (2 : Nat) ^ 63 ≠ 2 ^ 63 * 3 := by
  refine ⟨by decide, by norm_num⟩

/-- Every successful `update_price` (opcode 3) run only replaces the account
at position 1 (the product account): every other account is unchanged. -/
theorem op_update_price_success_shape (env : Env) (pid : Pubkey)
    (accounts : List AccountInfo) (d : Bytes) (l : List AccountInfo)
    (h : op_update_price env pid accounts d = .success l) :
    ∃ x, l = accounts.set 1 x := by
  unfold op_update_price at h
  simp only [ne_eq, ite_not] at h
  repeat' split at h
  all_goals first
    | (injection h with h2; exact ⟨_, h2.symm⟩)
    | (exact Outcome.noConfusion h)

/-- C9 amended: for every successful sell of quantity `q = fromLe ab` on a
product whose price at that moment is `p.price`, the created HistoryEntry
stores `total_price = (q * p.price) % 2^64` — the price in effect at the
sale, with wrapping multiplication; and any later successful update-price
operation rewrites only the product account (position 1), leaving every
history account (and everything else) unchanged. -/
theorem C9_history_price_at_sale (env : Env) (pid : Pubkey)
    (a0 a1 a2 a3 a4 a5 a6 a7 : AccountInfo) (t : List AccountInfo)
    (pidb ab dr : Bytes) (cs : CakeState) (p : Product)
    (hpb : pidb.length = 8) (hab : ab.length = 8)
    (h1 : a1.owner = pid)
    (h2 : CakeState.unpack a1.data = .ok cs)
    (h3 : a0.key = cs.owner)
    (h4 : a2.key = (env.fpa [productTag, toLe 8 (fromLe pidb)] pid).1)
    (h5 : Product.unpack a2.data = .ok p)
    (h6 : fromLe ab ≤ p.stock)
    (h7 : env.transfer_ok = true)
    (h8 : a5.key = (env.fpa [historyTag, a3.key, toLe 8 (fromLe pidb),
            toLe 8 cs.history_counter] pid).1)
    (h9 : env.create_ok = true) :
    (process_instruction env pid (a0 :: a1 :: a2 :: a3 :: a4 :: a5 :: a6 :: a7 :: t)
        (4 :: (pidb ++ (ab ++ dr))) =
      .success (sellResult env pid a0 a1 a2 a3 a4 a5 a6 a7 t pidb ab cs p) ∧
    ((sellResult env pid a0 a1 a2 a3 a4 a5 a6 a7 t pidb ab cs p).get? 5).map
        AccountInfo.data =
      some (PurchaseHistory.pack_into_slice
        ⟨fromLe pidb % 256, fromLe ab, (fromLe ab * p.price) % U64MOD, a3.key, env.clock⟩)) ∧
    (∀ (env2 : Env) (pid2 : Pubkey) (accts l : List AccountInfo) (d : Bytes),
      process_instruction env2 pid2 accts (3 :: d) = .success l →
      ∀ i, i ≠ 1 → l.get? i = accts.get? i) := by
  refine ⟨⟨sell_success_run env pid a0 a1 a2 a3 a4 a5 a6 a7 t pidb ab dr cs p hpb hab
    h1 h2 h3 h4 h5 h6 h7 h8 h9, rfl⟩, ?_⟩
  intro env2 pid2 accts l d h i hi
  rw [dispatch3] at h
  obtain ⟨x, hx⟩ := op_update_price_success_shape env2 pid2 accts (3 :: d) l h
  subst hx
  simp [List.get?_eq_getElem?, List.getElem?_set_ne (Ne.symm hi)]

/-- Accounts for a concrete `update_price` call: shop slot, product, owner. -/
def demoPriceAccounts : List AccountInfo := [demoCake, demoProd 2 10 0, demoOwner]

/-- Result of the concrete `update_price` call setting the price to 7. -/
def demoPriceResult : List AccountInfo :=
  [demoCake,
   { demoProd 2 10 0 with
     data := Product.pack_into_slice { demoProductRec 2 10 0 with price := 7 } },
   demoOwner]

set_option maxRecDepth 100000 in
/-- Witness for the amended C9: a concrete sale of quantity 2 at price 3
stores total_price 6 with the sale-time price, and a concrete later
update-price call (price := 7) rewrites only position 1, leaving the shop
slot (0) and owner (2) untouched. -/
theorem C9_history_price_at_sale_witness :
    (process_instruction demoEnv (pk 9) (demoAccounts 3 5 0) (demoSellData 0 2) =
        .success (sellResult demoEnv (pk 9) demoOwner demoCake (demoProd 3 5 0) demoBuyer
          demoSys demoHist demoPayer demoClock [] (toLe 8 0) (toLe 8 2) demoShop
          (demoProductRec 3 5 0)) ∧
      ((sellResult demoEnv (pk 9) demoOwner demoCake (demoProd 3 5 0) demoBuyer
          demoSys demoHist demoPayer demoClock [] (toLe 8 0) (toLe 8 2) demoShop
          (demoProductRec 3 5 0)).get? 5).map AccountInfo.data =
        some (PurchaseHistory.pack_into_slice
          ⟨fromLe (toLe 8 0) % 256, fromLe (toLe 8 2),
            (fromLe (toLe 8 2) * (demoProductRec 3 5 0).price) % U64MOD,
            demoBuyer.key, demoEnv.clock⟩)) ∧
    demoPriceResult.get? 0 = demoPriceAccounts.get? 0 ∧
    demoPriceResult.get? 2 = demoPriceAccounts.get? 2 := by
  refine ⟨(C9_history_price_at_sale demoEnv (pk 9) demoOwner demoCake (demoProd 3 5 0)
    demoBuyer demoSys demoHist demoPayer demoClock [] (toLe 8 0) (toLe 8 2) [] demoShop
    (demoProductRec 3 5 0) (by decide) (by decide) (by decide) (by rfl) (by decide)
    (by decide) (by rfl) (by decide) (by rfl) (by decide) (by rfl)).1, ?_, ?_⟩
  · exact (C9_history_price_at_sale demoEnv (pk 9) demoOwner demoCake (demoProd 3 5 0)
      demoBuyer demoSys demoHist demoPayer demoClock [] (toLe 8 0) (toLe 8 2) [] demoShop
      (demoProductRec 3 5 0) (by decide) (by decide) (by decide) (by rfl) (by decide)
      (by decide) (by rfl) (by decide) (by rfl) (by decide) (by rfl)).2 demoEnv (pk 9)
      demoPriceAccounts demoPriceResult (toLe 8 0 ++ (toLe 8 7 ++ [])) (by rfl) 0 (by decide)
  · exact (C9_history_price_at_sale demoEnv (pk 9) demoOwner demoCake (demoProd 3 5 0)
      demoBuyer demoSys demoHist demoPayer demoClock [] (toLe 8 0) (toLe 8 2) [] demoShop
      (demoProductRec 3 5 0) (by decide) (by decide) (by decide) (by rfl) (by decide)
      (by decide) (by rfl) (by decide) (by rfl) (by decide) (by rfl)).2 demoEnv (pk 9)
      demoPriceAccounts demoPriceResult (toLe 8 0 ++ (toLe 8 7 ++ [])) (by rfl) 2 (by decide)

/-- Forgets the signer flag of an account. -/
def eraseSig (a : AccountInfo) : AccountInfo := { a with is_signer := false }

/-- Forgets the signer flags of all accounts in an outcome. -/
def eraseOutcome : Outcome → Outcome
  | .success l => .success (l.map eraseSig)
  | .failure e l => .failure e (l.map eraseSig)
  | .panicked l => .panicked (l.map eraseSig)

theorem eraseSig_key (a : AccountInfo) : (eraseSig a).key = a.key := rfl

theorem eraseSig_owner (a : AccountInfo) : (eraseSig a).owner = a.owner := rfl

theorem eraseSig_data (a : AccountInfo) : (eraseSig a).data = a.data := rfl

theorem eraseSig_lamports (a : AccountInfo) : (eraseSig a).lamports = a.lamports := rfl

theorem op_init_eraseSig (env : Env) (pid : Pubkey) (accounts : List AccountInfo) (d : Bytes) :
    op_init env pid (accounts.map eraseSig) d = eraseOutcome (op_init env pid accounts d) := by
  unfold op_init
  match accounts with
  | [] => rfl
  | [a] => rfl
  | [a, b] => rfl
  | [a, b, c] => rfl
  | a :: b :: c :: e :: t =>
    simp only [List.map_cons, eraseSig_key, eraseSig_owner, eraseSig_data, eraseSig_lamports]
    repeat' split
    all_goals simp_all [eraseOutcome, List.map_set, List.map_cons, eraseSig]

set_option maxRecDepth 10000 in
theorem op_add_product_eraseSig (env : Env) (pid : Pubkey) (accounts : List AccountInfo)
    (d : Bytes) :
    op_add_product env pid (accounts.map eraseSig) d =
      eraseOutcome (op_add_product env pid accounts d) := by
  unfold op_add_product
  match accounts with
  | [] => rfl
  | [a] => rfl
  | [a, b] => rfl
  | [a, b, c] => rfl
  | [a, b, c, e] => rfl
  | a :: b :: c :: e :: f :: t =>
    simp only [List.map_cons, eraseSig_key, eraseSig_owner, eraseSig_data, eraseSig_lamports]
    repeat' split
    all_goals simp_all [eraseOutcome, List.map_set, List.map_cons, eraseSig]

set_option maxRecDepth 10000 in
theorem op_add_stock_eraseSig (env : Env) (pid : Pubkey) (accounts : List AccountInfo)
    (d : Bytes) :
    op_add_stock env pid (accounts.map eraseSig) d =
      eraseOutcome (op_add_stock env pid accounts d) := by
  unfold op_add_stock
  match accounts with
  | [] => rfl
  | [a] => rfl
  | [a, b] => rfl
  | a :: b :: c :: t =>
    simp only [List.map_cons, eraseSig_key, eraseSig_owner, eraseSig_data, eraseSig_lamports]
    repeat' split
    all_goals simp_all [eraseOutcome, List.map_set, List.map_cons, eraseSig]

set_option maxRecDepth 10000 in
theorem op_update_price_eraseSig (env : Env) (pid : Pubkey) (accounts : List AccountInfo)
    (d : Bytes) :
    op_update_price env pid (accounts.map eraseSig) d =
      eraseOutcome (op_update_price env pid accounts d) := by
  unfold op_update_price
  match accounts with
  | [] => rfl
  | [a] => rfl
  | [a, b] => rfl
  | a :: b :: c :: t =>
    simp only [List.map_cons, eraseSig_key, eraseSig_owner, eraseSig_data, eraseSig_lamports]
    repeat' split
    all_goals simp_all [eraseOutcome, List.map_set, List.map_cons, eraseSig]

set_option maxRecDepth 40000 in
theorem op_sell_eraseSig (env : Env) (pid : Pubkey) (accounts : List AccountInfo)
    (d : Bytes) :
    op_sell env pid (accounts.map eraseSig) d =
      eraseOutcome (op_sell env pid accounts d) := by
  unfold op_sell
  match accounts with
  | [] => rfl
  | [a] => rfl
  | [a, b] => rfl
  | [a, b, c] => rfl
  | [a, b, c, e] => rfl
  | [a, b, c, e, f] => rfl
  | [a, b, c, e, f, g] => rfl
  | [a, b, c, e, f, g, i] => rfl
  | a :: b :: c :: e :: f :: g :: i :: j :: t =>
    simp only [List.map_cons, eraseSig_key, eraseSig_owner, eraseSig_data, eraseSig_lamports]
    by_cases h1 : b.owner ≠ pid
    · simp only [if_pos h1, eraseOutcome, List.map_cons]
    · simp only [if_neg h1]
      cases hu : CakeState.unpack b.data with
      | error e2 => simp only [eraseOutcome, List.map_cons]
      | ok cs =>
        by_cases h3 : cs.owner ≠ a.key
        · simp only [if_pos h3, eraseOutcome, List.map_cons]
        · simp only [if_neg h3]
          cases hs1 : sliceN d 1 9 with
          | none => simp only [eraseOutcome, List.map_cons]
          | some pidb =>
            by_cases h4 : c.key ≠ (env.fpa [productTag, toLe 8 (fromLe pidb)] pid).1
            · simp only [if_pos h4, eraseOutcome, List.map_cons]
            · simp only [if_neg h4]
              cases hp : Product.unpack c.data with
              | error e2 => simp only [eraseOutcome, List.map_cons]
              | ok product =>
                cases hs2 : sliceN d 9 17 with
                | none => simp only [eraseOutcome, List.map_cons]
                | some amountb =>
                  by_cases h6 : fromLe amountb > product.stock
                  · simp only [if_pos h6, eraseOutcome, List.map_cons]
                  · simp only [if_neg h6]
                    by_cases h7 : env.transfer_ok = false
                    · simp only [if_pos h7, eraseOutcome, List.map_cons]
                    · simp only [if_neg h7]
                      cases hpk : Product.pack
                          { product with stock := product.stock - fromLe amountb } c.data with
                      | error e2 =>
                        simp only [eraseOutcome, List.map_set, List.map_cons, eraseSig]
                      | ok pdata =>
                        by_cases h8 : g.key ≠ (env.fpa [historyTag, e.key,
                            toLe 8 (fromLe pidb), toLe 8 cs.history_counter] pid).1
                        · simp only [if_pos h8, eraseOutcome, List.map_set, List.map_cons,
                            eraseSig]
                        · simp only [if_neg h8]
                          by_cases h9 : env.create_ok = false
                          · simp only [if_pos h9, eraseOutcome, List.map_set, List.map_cons,
                              eraseSig]
                          · simp only [if_neg h9]
                            cases hhk : PurchaseHistory.pack
                                ⟨fromLe pidb % 256, fromLe amountb,
                                  (fromLe amountb * product.price) % U64MOD, e.key, env.clock⟩
                                (List.replicate 57 0) with
                            | error e2 =>
                              simp only [eraseOutcome, List.map_set, List.map_cons, eraseSig]
                            | ok hdata =>
                              cases hck : CakeState.pack
                                  { cs with history_counter :=
                                      (cs.history_counter + 1) % U64MOD } b.data with
                              | error e2 =>
                                simp only [eraseOutcome, List.map_set, List.map_cons, eraseSig]
                              | ok cdata =>
                                simp only [eraseOutcome, List.map_set, List.map_cons, eraseSig]

set_option maxRecDepth 10000 in
theorem op_migrate_history_eraseSig (env : Env) (pid : Pubkey) (accounts : List AccountInfo)
    (d : Bytes) :
    op_migrate_history env pid (accounts.map eraseSig) d =
      eraseOutcome (op_migrate_history env pid accounts d) := by
  unfold op_migrate_history
  match accounts with
  | [] => rfl
  | [a] => rfl
  | [a, b] => rfl
  | [a, b, c] => rfl
  | a :: b :: c :: e :: t =>
    simp only [List.map_cons, eraseSig_key, eraseSig_owner, eraseSig_data, eraseSig_lamports]
    repeat' split
    all_goals simp_all [eraseOutcome, List.map_set, List.map_cons, eraseSig]

set_option maxRecDepth 10000 in
theorem op_close_account_eraseSig (env : Env) (pid : Pubkey) (accounts : List AccountInfo)
    (d : Bytes) :
    op_close_account env pid (accounts.map eraseSig) d =
      eraseOutcome (op_close_account env pid accounts d) := by
  unfold op_close_account
  match accounts with
  | [] => rfl
  | [a] => rfl
  | [a, b] => rfl
  | a :: b :: c :: t =>
    simp only [List.map_cons, eraseSig_key, eraseSig_owner, eraseSig_data, eraseSig_lamports]
    repeat' split
    all_goals simp_all [eraseOutcome, List.map_set, List.map_cons, eraseSig]

set_option maxRecDepth 10000 in
theorem op_close_product_account_eraseSig (env : Env) (pid : Pubkey)
    (accounts : List AccountInfo) (d : Bytes) :
    op_close_product_account env pid (accounts.map eraseSig) d =
      eraseOutcome (op_close_product_account env pid accounts d) := by
  unfold op_close_product_account
  match accounts with
  | [] => rfl
  | [a] => rfl
  | [a, b] => rfl
  | [a, b, c] => rfl
  | a :: b :: c :: e :: t =>
    simp only [List.map_cons, eraseSig_key, eraseSig_owner, eraseSig_data, eraseSig_lamports]
    repeat' split
    all_goals simp_all [eraseOutcome, List.map_set, List.map_cons, eraseSig]

set_option maxRecDepth 10000 in
theorem process_instruction_eraseSig (env : Env) (pid : Pubkey)
    (accounts : List AccountInfo) (d : Bytes) :
    process_instruction env pid (accounts.map eraseSig) d =
      eraseOutcome (process_instruction env pid accounts d) := by
  unfold process_instruction
  cases hb : byteAt d 0 with
  | none => simp [eraseOutcome]
  | some i =>
    simp only [hb]
    match i with
    | 0 => exact op_init_eraseSig env pid accounts d
    | 1 => exact op_add_product_eraseSig env pid accounts d
    | 2 => exact op_add_stock_eraseSig env pid accounts d
    | 3 => exact op_update_price_eraseSig env pid accounts d
    | 4 => exact op_sell_eraseSig env pid accounts d
    | 5 => exact op_migrate_history_eraseSig env pid accounts d
    | 6 => exact op_close_account_eraseSig env pid accounts d
    | 7 => exact op_close_product_account_eraseSig env pid accounts d
    | n + 8 => simp [eraseOutcome]

/-- C7 (implicit): the outcome of `process_instruction` never depends on any
account's `is_signer` flag — for two invocations identical except for the
signer flags, the results agree up to those flags (same success/failure
status, same error, same keys, lamports, data and owners everywhere); owner
authorization is only the public-key comparison against `ShopState.owner`,
with no signature check on any path. -/
theorem C7_signer_flags_irrelevant (env : Env) (pid : Pubkey)
    (accounts1 accounts2 : List AccountInfo) (d : Bytes)
    (h : accounts1.map eraseSig = accounts2.map eraseSig) :
    eraseOutcome (process_instruction env pid accounts1 d) =
      eraseOutcome (process_instruction env pid accounts2 d) := by
  rw [← process_instruction_eraseSig env pid accounts1 d,
    ← process_instruction_eraseSig env pid accounts2 d, h]

set_option maxRecDepth 40000 in
/-- Witness for C7: flipping the signer flags of the owner and buyer in the
concrete sell invocation leaves the outcome unchanged up to those flags. -/
theorem C7_signer_flags_irrelevant_witness :
    eraseOutcome (process_instruction demoEnv (pk 9)
        [⟨pk 1, true, 100, [], []⟩, demoCake, demoProd 2 10 0, ⟨pk 3, false, 1000, [], []⟩,
          demoSys, demoHist, demoPayer, demoClock] (demoSellData 0 3)) =
      eraseOutcome (process_instruction demoEnv (pk 9) (demoAccounts 2 10 0)
        (demoSellData 0 3)) :=
  C7_signer_flags_irrelevant demoEnv (pk 9)
    [⟨pk 1, true, 100, [], []⟩, demoCake, demoProd 2 10 0, ⟨pk 3, false, 1000, [], []⟩,
      demoSys, demoHist, demoPayer, demoClock]
    (demoAccounts 2 10 0) (demoSellData 0 3) (by decide)
